import Mathlib

/-!
# Verification of the grid-synth core (`source/core/grid_synth.{hpp,cpp}`)

A shallow embedding of the grid-synthesis core: the `grid` data structure,
the symbol `alphabet`, the two transformation kinds (`random_transformation`
and `rule_based_transformation`), the `grid_synth` pipeline, and the JSON
codec (`to_json` / `from_json`).

Modelling conventions:
* C++ `int` is modelled as `Int`; the flat row-major index `y*m_width + x`
  used by `grid::get`/`grid::set`/`operator()` is taken through `Int.toNat`
  (in-bounds accesses, the only ones the theorems speak about, agree with
  the C++ code exactly).
* `std::vector<int>::resize(n, v)` keeps the existing prefix, truncates when
  shrinking and appends copies of `v` when growing; `listResize` mirrors
  this.  A negative `m_width * m_height` product converts to a huge
  `size_t` and makes `resize` throw `std::length_error`; `gridNew` (the
  `grid::grid` constructor) models that throwing path as `none`.
* `float` probabilities and the uniform draw in `[0,1)` are modelled as
  exact rationals (`ℚ`); the algorithmic content (accumulate-and-compare
  selection) is unchanged by this.
* Randomness: `rule_based_transformation::apply` draws one value per
  matched anchor from a fresh generator; the draws are modelled as a
  stream `rs : Nat → ℚ`, consumed in scan order through an explicit
  counter.  `random_transformation::apply` draws one index per cell in
  iteration order (outer `i` over the width, inner `j` over the height);
  the draw for cell `(i, j)` is modelled as `ints (i * H + j)`.
* `std::map<int, symbol>` (the alphabet) is modelled as a list of symbols
  strictly sorted by `id`; `add_symbol`'s insert-if-absent is the sorted
  insertion `add_symbol` below.
* `nlohmann::json` is modelled by the inductive `Json`; each parse step of
  `from_json` has one of three outcomes (`ParseOutcome`): a value, a thrown
  exception (a wrong-kind access or the version check — these are what the
  `catch` wraps), or the assertion/undefined-behaviour path of `const
  operator[]` on a missing key, which throws nothing and so is neither
  caught nor wrapped.
-/

namespace GS

/-- A 2D grid of integer symbol ids, row-major (`grid` in `grid_synth.hpp`). -/
structure grid where
  m_width : Int
  m_height : Int
  m_data : List Int
deriving DecidableEq, Repr

/-- Model of `grid::get` / `operator()` (const): unchecked read `m_data[y*m_width + x]`. -/
def grid.get (g : grid) (x y : Int) : Int :=
  g.m_data.getD (y * g.m_width + x).toNat 0

/-- Model of `grid::set` / `operator()` (mutable): unchecked write `m_data[y*m_width + x] = v`. -/
def grid.set (g : grid) (x y v : Int) : grid :=
  { g with m_data := g.m_data.set (y * g.m_width + x).toNat v }

/-- Model of `grid::in_bounds`. -/
def grid.in_bounds (g : grid) (x y : Int) : Bool :=
  decide (0 ≤ x) && decide (x < g.m_width) && decide (0 ≤ y) && decide (y < g.m_height)

/-- Model of `std::vector<int>::resize(n, v)`: keep the prefix, truncate or append `v`s. -/
def listResize (l : List Int) (n : Nat) (v : Int) : List Int :=
  if n ≤ l.length then l.take n else l ++ List.replicate (n - l.length) v

/-- Model of `grid::resize(new_width, new_height, default_value)` on the non-throwing
path (`m_width * m_height ≥ 0`): set the dimensions and resize the backing
vector.  The throwing path (negative product → huge `size_t`) is modelled
by `gridNew` for the constructor, the one place a claim depends on it. -/
def grid.resize (g : grid) (w h d : Int) : grid :=
  { m_width := w, m_height := h, m_data := listResize g.m_data (w * h).toNat d }

/-- Model of `grid::grid(width, height, default_value)`: default-constructed members
(`m_data` empty) followed by `resize`.  `none` models the `std::length_error`
thrown by `std::vector::resize` when the `int` product `w*h` is negative and
converts to a huge `size_t`. -/
def gridNew (w h d : Int) : Option grid :=
  if w * h < 0 then none else some ((grid.mk 0 0 []).resize w h d)

/-- Well-formedness invariant of a live grid: nonnegative dimensions and
`cells.len() == width*height`. -/
def grid.wf (g : grid) : Prop :=
  0 ≤ g.m_width ∧ 0 ≤ g.m_height ∧ g.m_data.length = (g.m_width * g.m_height).toNat

instance (g : grid) : Decidable g.wf := by
  unfold grid.wf; infer_instance

/-- The default-constructed `grid()` (defaults `width = 10, height = 10,
default_value = 0` in `grid_synth.hpp`); this is the `static grid empty_grid`
returned by `get_replacement_grid` on an invalid index. -/
def defaultGrid : grid := (grid.mk 0 0 []).resize 10 10 0

/-- The id of `alphabet::wildcard_symbol` (= -1). -/
def wildcardId : Int := -1

/-- Model of `symbol` in `grid_synth.hpp`. -/
structure symbol where
  id : Int
  name : String
deriving DecidableEq, Repr

/-- Model of `alphabet::add_symbol`: insert-if-absent into the id-sorted symbol map
(`std::map<int, symbol>`), modelled as sorted insertion into a strictly
id-sorted list. -/
def add_symbol : List symbol → symbol → List symbol
  | [], s => [s]
  | a :: rest, s =>
    if s.id < a.id then s :: a :: rest
    else if s.id = a.id then a :: rest
    else a :: add_symbol rest s

/-- The map invariant of `alphabet::m_symbols`: strictly sorted by id. -/
def alphabetWF (al : List symbol) : Prop :=
  al.Pairwise (fun a b => a.id < b.id)

instance (al : List symbol) : Decidable (alphabetWF al) := by
  unfold alphabetWF; infer_instance

/-- Model of `rule_based_transformation::replacement_entry`. -/
structure replacement_entry where
  probability : ℚ
  replacement : grid
deriving DecidableEq, Repr

/-- The pattern state of a `rule_based_transformation`: its search grid and
replacement list (`m_search`, `m_replacement`). -/
structure rule_based_transformation where
  m_search : grid
  m_replacement : List replacement_entry
deriving DecidableEq, Repr

/-- Model of `get_replacement_probability`: the stored probability, or `0.0` when the
index is outside `[0, m_replacement.size())`. -/
def rule_based_transformation.get_replacement_probability
    (t : rule_based_transformation) (index : Int) : ℚ :=
  if 0 ≤ index ∧ index < (t.m_replacement.length : Int) then
    (t.m_replacement.getD index.toNat ⟨0, defaultGrid⟩).probability
  else 0

/-- Model of `get_replacement_grid`: the stored replacement grid, or the static
default-constructed `empty_grid` when the index is invalid. -/
def rule_based_transformation.get_replacement_grid
    (t : rule_based_transformation) (index : Int) : grid :=
  if 0 ≤ index ∧ index < (t.m_replacement.length : Int) then
    (t.m_replacement.getD index.toNat ⟨0, defaultGrid⟩).replacement
  else defaultGrid

/-- Model of `update_replacement`: overwrite both fields of the entry when the index is
in `[0, m_replacement.size())`, otherwise do nothing. -/
def rule_based_transformation.update_replacement
    (t : rule_based_transformation) (index : Int) (p : ℚ) (r : grid) :
    rule_based_transformation :=
  if 0 ≤ index ∧ index < (t.m_replacement.length : Int) then
    { t with m_replacement := t.m_replacement.set index.toNat ⟨p, r⟩ }
  else t

/-- The fit test of the anchor loop in `rule_based_transformation::apply`:
`input.in_bounds(i + m_search.width() - 1, j + m_search.height() - 1)`. -/
def fitsAt (input search : grid) (i j : Int) : Bool :=
  input.in_bounds (i + search.m_width - 1) (j + search.m_height - 1)

/-- The match test of `rule_based_transformation::apply` at anchor `(i, j)`:
every search cell is either the wildcard or equal to the corresponding input
cell (the C++ loop breaks early; the result is the same conjunction). -/
def matchAt (input search : grid) (i j : Int) : Bool :=
  (List.range search.m_width.toNat).all fun (x : Nat) =>
    (List.range search.m_height.toNat).all fun (y : Nat) =>
      search.get (↑x) (↑y) == wildcardId ||
        input.get (i + ↑x) (j + ↑y) == search.get (↑x) (↑y)

/-- An anchor at which a replacement can fire: the search pattern fits and
matches there. -/
def matchedAnchor (input search : grid) (a : Int × Int) : Bool :=
  fitsAt input search a.1 a.2 && matchAt input search a.1 a.2

/-- The replacement-selection loop of `rule_based_transformation::apply`:
`acc += p; if (r <= acc) { ...; break; }` walked over the stored list. -/
def selectReplacement : List replacement_entry → ℚ → ℚ → Option grid
  | [], _, _ => none
  | e :: rest, acc, r =>
    let acc' := acc + e.probability
    if r ≤ acc' then some e.replacement else selectReplacement rest acc' r

/-- The replacement-application loop: write the replacement cell-by-cell at
anchor `(i, j)` (`x` outer, `y` inner), skipping wildcard cells. -/
def applyRepl (o : grid) (repl : grid) (i j : Int) : grid :=
  (List.range repl.m_width.toNat).foldl (fun o (x : Nat) =>
    (List.range repl.m_height.toNat).foldl (fun o (y : Nat) =>
      if repl.get (↑x) (↑y) == wildcardId then o
      else o.set (i + ↑x) (j + ↑y) (repl.get (↑x) (↑y))) o) o

/-- One iteration of the anchor scan: skip unless the pattern fits and
matches; on a match consume the next random draw and apply the selected
replacement (if any).  The `Nat` component counts the draws consumed. -/
def anchorStep (t : rule_based_transformation) (input : grid) (rs : Nat → ℚ)
    (st : grid × Nat) (a : Int × Int) : grid × Nat :=
  if matchedAnchor input t.m_search a then
    let o := match selectReplacement t.m_replacement 0 (rs st.2) with
      | some repl => applyRepl st.1 repl a.1 a.2
      | none => st.1
    (o, st.2 + 1)
  else st

/-- The anchor enumeration of `rule_based_transformation::apply`: `i` outer
over the input width, `j` inner over the input height. -/
def anchorList (w h : Int) : List (Int × Int) :=
  (List.range w.toNat).flatMap fun (i : Nat) =>
    (List.range h.toNat).map fun (j : Nat) => ((i : Int), (j : Int))

/-- The copy loop of `rule_based_transformation::apply` (`y` outer, `x` inner:
`output(x, y) = input(x, y)`). -/
def copyInto (o : grid) (input : grid) : grid :=
  (List.range input.m_height.toNat).foldl (fun o (y : Nat) =>
    (List.range input.m_width.toNat).foldl (fun o (x : Nat) =>
      o.set (↑x) (↑y) (input.get (↑x) (↑y))) o) o

/-- The dimension guard shared by both `apply` overrides: resize the output
buffer (default fill 0) when its dimensions differ from the input's. -/
def ensureDims (input output : grid) : grid :=
  if output.m_width == input.m_width && output.m_height == input.m_height then output
  else output.resize input.m_width input.m_height 0

/-- Model of `rule_based_transformation::apply(input, output)`: resize the output if
needed, copy the input into it, then scan all anchors in order.  Returns the
final output grid together with the number of random draws consumed. -/
def rule_apply (t : rule_based_transformation) (input output : grid)
    (rs : Nat → ℚ) : grid × Nat :=
  (anchorList input.m_width input.m_height).foldl
    (anchorStep t input rs) (copyInto (ensureDims input output) input, 0)

/-- The bounds handed to `std::uniform_int_distribution<int>` in
`random_transformation::apply`: `(0, get_symbols().size() - 1)`.  The C++
contract of the distribution requires `fst ≤ snd`; with an empty alphabet the
pair is `(0, -1)` and the behaviour is undefined. -/
def randomDisBounds (al : List symbol) : Int × Int :=
  (0, (al.length : Int) - 1)

/-- Model of `random_transformation::apply(input, output)`: resize the output if
needed, then fill every cell with a randomly drawn symbol id (`i` outer over
the width, `j` inner over the height).  The draw for cell `(i, j)` — the
`(i*H + j)`-th call to `dis(gen)` — is modelled as `ints (i*H + j)`; the
drawn index selects from the id-ordered symbol list. -/
def randomApply (al : List symbol) (input output : grid) (ints : Nat → Nat) : grid :=
  let o := ensureDims input output
  (List.range input.m_width.toNat).foldl (fun o (i : Nat) =>
    (List.range input.m_height.toNat).foldl (fun o (j : Nat) =>
      o.set (↑i) (↑j) ((al.getD (ints (i * input.m_height.toNat + j)) ⟨0, ""⟩).id)) o) o

/-- The variant payload of a `transformation` (`Type::RANDOM` carries no
extra state; `Type::RULE_BASED` carries search and replacements). -/
inductive transformKind where
  | random : transformKind
  | ruleBased : rule_based_transformation → transformKind
deriving DecidableEq, Repr

/-- A pipeline `transformation`: name, enabled flag and variant. -/
structure transform where
  m_name : String
  m_enabled : Bool
  kind : transformKind
deriving DecidableEq, Repr

/-- The random source handed to one `apply` call (a fresh `std::mt19937` per
call): a stream of uniform `[0,1)` draws for the rule-based variant and a
stream of uniform index draws for the random variant. -/
structure rngSource where
  floats : Nat → ℚ
  ints : Nat → Nat

/-- Dispatch of `transformation::apply` over the two variants. -/
def applyTransform (al : List symbol) (t : transform) (input output : grid)
    (rng : rngSource) : grid :=
  match t.kind with
  | .random => randomApply al input output rng.ints
  | .ruleBased r => (rule_apply r input output rng.floats).1

/-- The full synthesizer state (`grid_synth`): owned grid, shared alphabet
(modelled by its id-sorted symbol list) and ordered transformation list. -/
structure grid_synth where
  m_grid : grid
  m_alphabet : List symbol
  m_transformations : List transform
deriving DecidableEq, Repr

/-- The double-buffered pipeline loop of `grid_synth::synthesize`; carries
the values held by the `input` and `output` pointers, whether the pointers
are currently swapped (`input != &m_grid`), and the number of `apply` calls
made so far (each one seeds a fresh generator, stream `rngs k`).  Disabled
transformations are skipped without touching any state. -/
def synthLoop (al : List symbol) (rngs : Nat → rngSource) :
    List transform → grid → grid → Bool → Nat → grid × grid × Bool
  | [], inp, out, sw, _ => (inp, out, sw)
  | t :: rest, inp, out, sw, k =>
    if t.m_enabled then
      synthLoop al rngs rest (applyTransform al t inp out (rngs k)) inp (!sw) (k + 1)
    else
      synthLoop al rngs rest inp out sw k

/-- Model of `grid_synth::synthesize`: run the pipeline over a fresh buffer grid of
the same dimensions; afterwards the stored grid holds the final `input`
value — via the explicit copy-back loop when the pointers ended up swapped,
or because `input` still aliases `m_grid` (whose contents the pipeline's
in-place applications produced) when they did not. -/
def grid_synth.synthesize (s : grid_synth) (rngs : Nat → rngSource) : grid_synth :=
  let buffer := (grid.mk 0 0 []).resize s.m_grid.m_width s.m_grid.m_height 0
  let res := synthLoop s.m_alphabet rngs s.m_transformations s.m_grid buffer false 0
  if res.2.2 then { s with m_grid := copyInto s.m_grid res.1 }
  else { s with m_grid := res.1 }

/-- Well-formedness of one transformation: for the rule-based variant the
search and every replacement grid satisfy the grid invariant. -/
def transformWF (t : transform) : Prop :=
  match t.kind with
  | .random => True
  | .ruleBased r => r.m_search.wf ∧ ∀ e ∈ r.m_replacement, e.replacement.wf

instance (t : transform) : Decidable (transformWF t) := by
  unfold transformWF; exact match t.kind with
    | .random => inferInstance
    | .ruleBased r => inferInstance

/-- Well-formedness of a full synthesizer state: grid invariant, alphabet
map invariant, and per-transformation invariants. -/
def grid_synth.wf (s : grid_synth) : Prop :=
  s.m_grid.wf ∧ alphabetWF s.m_alphabet ∧ ∀ t ∈ s.m_transformations, transformWF t

instance (s : grid_synth) : Decidable s.wf := by
  unfold grid_synth.wf; infer_instance

/-! ## The JSON codec

`nlohmann::json` is modelled by the inductive `Json`.  The parse steps of
`grid_synth::from_json` have three possible outcomes, kept apart by
`ParseOutcome`: a value; a thrown C++ exception (`type_error` on a value of
the wrong kind, the `length_error` of a failed vector allocation, the
explicit `runtime_error` of the version check) — these are what the
function's `catch` wraps into its single "Failed to parse" error; and the
assertion/undefined-behaviour path (`undefined`): `const operator[]` on an
object that lacks the requested key is `JSON_ASSERT` + end-iterator
dereference, which throws nothing, so such an access never produces either
a synthesizer or the wrapped error.  Integer-valued JSON numbers are
`jint`, floating ones (the replacement probabilities) are `jnum`. -/

inductive Json where
  | jnull : Json
  | jbool : Bool → Json
  | jint : Int → Json
  | jnum : ℚ → Json
  | jstr : String → Json
  | jarr : List Json → Json
  | jobj : List (String × Json) → Json

/-- Outcome of one parse step of `from_json`: a value, a thrown C++
exception (caught and wrapped by `from_json`'s `catch`), or the
assertion-failure/undefined-behaviour path of a missing-key access, which
throws nothing and yields no defined result. -/
inductive ParseOutcome (α : Type) where
  | ok : α → ParseOutcome α
  | thrown : String → ParseOutcome α
  | undefined : ParseOutcome α
deriving DecidableEq

instance : Monad ParseOutcome where
  pure := .ok
  bind m f :=
    match m with
    | .ok a => f a
    | .thrown e => .thrown e
    | .undefined => .undefined

/-- Object member lookup (`j["key"]` on a const document): the key present
yields the member; a non-object value throws `type_error` (error 305); an
object without the key is `JSON_ASSERT`/undefined behaviour — no exception
is thrown, modelled as `undefined`. -/
def getField : Json → String → ParseOutcome Json
  | .jobj kvs, key =>
    match kvs.find? (fun kv => kv.1 == key) with
    | some kv => .ok kv.2
    | none => .undefined
  | _, _ => .thrown "type error: cannot use operator[] with a string argument"

/-- Conversion to `int` (numbers convert, `static_cast` truncates a float
toward zero; everything else throws `type_error`). -/
def asInt : Json → ParseOutcome Int
  | .jint n => .ok n
  | .jnum q => .ok (if q < 0 then ⌈q⌉ else ⌊q⌋)
  | _ => .thrown "type error: expected number"

/-- Conversion to `float` (both number kinds convert). -/
def asRat : Json → ParseOutcome ℚ
  | .jint n => .ok (n : ℚ)
  | .jnum q => .ok q
  | _ => .thrown "type error: expected number"

/-- Conversion to `std::string`. -/
def asStr : Json → ParseOutcome String
  | .jstr s => .ok s
  | _ => .thrown "type error: expected string"

/-- Conversion to `bool`. -/
def asBool : Json → ParseOutcome Bool
  | .jbool b => .ok b
  | _ => .thrown "type error: expected boolean"

/-- Array access (iteration / `std::vector` conversion source). -/
def asArr : Json → ParseOutcome (List Json)
  | .jarr l => .ok l
  | _ => .thrown "type error: expected array"

/-- Element-wise `int` conversion of a JSON array (the `std::vector<int>`
construction). -/
def mapAsInt : List Json → ParseOutcome (List Int)
  | [] => .ok []
  | j :: rest => do
    let n ← asInt j
    let tail ← mapAsInt rest
    .ok (n :: tail)

/-- Model of the `std::vector<int>` conversion of a JSON value. -/
def asIntList (j : Json) : ParseOutcome (List Int) := do
  let l ← asArr j
  mapAsInt l

/-- The serialization of one grid in `grid_synth::to_json`:
`{"width": w, "height": h, "data": [...]}` with `data` the raw row-major
cell vector. -/
def gridToJson (g : grid) : Json :=
  .jobj [("width", .jint g.m_width), ("height", .jint g.m_height),
         ("data", .jarr (g.m_data.map .jint))]

/-- The serialization of one alphabet symbol in `grid_synth::to_json`. -/
def symbolToJson (sy : symbol) : Json :=
  .jobj [("id", .jint sy.id), ("name", .jstr sy.name)]

/-- The serialization of one replacement entry in `grid_synth::to_json`. -/
def replacementToJson (e : replacement_entry) : Json :=
  .jobj [("probability", .jnum e.probability), ("grid", gridToJson e.replacement)]

/-- The serialization of one transformation in `grid_synth::to_json`. -/
def transformToJson (t : transform) : Json :=
  match t.kind with
  | .random =>
    .jobj [("name", .jstr t.m_name), ("enabled", .jbool t.m_enabled),
           ("type", .jstr "random")]
  | .ruleBased r =>
    .jobj [("name", .jstr t.m_name), ("enabled", .jbool t.m_enabled),
           ("type", .jstr "rule_based"),
           ("search", gridToJson r.m_search),
           ("replacements", .jarr (r.m_replacement.map replacementToJson))]

/-- Model of `grid_synth::to_json`: version, grid, alphabet (symbols in id order, the
iteration order of `std::map`), transformations in stored order. -/
def grid_synth.to_json (s : grid_synth) : Json :=
  .jobj [("version", .jint 1),
         ("grid", gridToJson s.m_grid),
         ("alphabet", .jobj [("symbols", .jarr (s.m_alphabet.map symbolToJson))]),
         ("transformations", .jarr (s.m_transformations.map transformToJson))]

/-- The guarded cell-restore loop used three times by `grid_synth::from_json`
(main grid, search grid, replacement grids): `y` outer, `x` inner,
`index = y*width + x`, set only when `index < data.size()` — a short data
array silently leaves the remaining cells at their constructor default. -/
def fillData (w h : Int) (data : List Int) (g : grid) : grid :=
  (List.range h.toNat).foldl (fun g (y : Nat) =>
    (List.range w.toNat).foldl (fun g (x : Nat) =>
      if y * w.toNat + x < data.length then
        g.set (↑x) (↑y) (data.getD (y * w.toNat + x) 0)
      else g) g) g

/-- Parse one `{"width", "height", "data"}` object of `from_json` into a
fresh default-0 grid: the `grid(w, h)` construction (which throws
`length_error` on a negative `w*h` product, modelled by `gridNew = none`)
followed by the guarded cell loop. -/
def parseGridObj (gj : Json) : ParseOutcome grid := do
  let w ← asInt (← getField gj "width")
  let h ← asInt (← getField gj "height")
  let data ← asIntList (← getField gj "data")
  match gridNew w h 0 with
  | some g => pure (fillData w h data g)
  | none => .thrown "length_error"

/-- The alphabet-restore loop of `from_json`: `add_symbol` for each document
entry in order (duplicate ids keep the first registration). -/
def parseSymbols : List Json → List symbol → ParseOutcome (List symbol)
  | [], acc => .ok acc
  | sj :: rest, acc => do
    let i ← asInt (← getField sj "id")
    let nm ← asStr (← getField sj "name")
    parseSymbols rest (add_symbol acc ⟨i, nm⟩)

/-- The replacement-restore loop of `from_json`. -/
def parseRepls : List Json → ParseOutcome (List replacement_entry)
  | [] => .ok []
  | rj :: rest => do
    let p ← asRat (← getField rj "probability")
    let g ← parseGridObj (← getField rj "grid")
    let tail ← parseRepls rest
    .ok (⟨p, g⟩ :: tail)

/-- The transformation-restore loop of `from_json`: dispatch on `type`; a
document entry with an unknown type string is silently skipped (the C++
`if`/`else if` chain has no final `else`). -/
def parseTransformsList : List Json → ParseOutcome (List transform)
  | [] => .ok []
  | tj :: rest => do
    let ty ← asStr (← getField tj "type")
    let nm ← asStr (← getField tj "name")
    let en ← asBool (← getField tj "enabled")
    if ty = "random" then
      let tail ← parseTransformsList rest
      .ok (⟨nm, en, .random⟩ :: tail)
    else if ty = "rule_based" then do
      let search ← parseGridObj (← getField tj "search")
      let repls ← parseRepls (← asArr (← getField tj "replacements"))
      let tail ← parseTransformsList rest
      .ok (⟨nm, en, .ruleBased ⟨search, repls⟩⟩ :: tail)
    else
      parseTransformsList rest

/-- The body of `grid_synth::from_json` (inside the `try`): version check,
grid, alphabet, transformations, in that order. -/
def fromJsonCore (j : Json) : ParseOutcome grid_synth := do
  let version ← asInt (← getField j "version")
  if version ≠ 1 then
    .thrown ("Unsupported grid_synth file version: " ++ toString version)
  else do
    let gj ← getField j "grid"
    let gw ← asInt (← getField gj "width")
    let gh ← asInt (← getField gj "height")
    let gdata ← asIntList (← getField gj "data")
    let g0 ← match gridNew gw gh 0 with
      | some g => pure g
      | none => ParseOutcome.thrown "length_error"
    let aj ← getField j "alphabet"
    let sjs ← asArr (← getField aj "symbols")
    let alpha ← parseSymbols sjs []
    let tjs ← asArr (← getField j "transformations")
    let ts ← parseTransformsList tjs
    .ok ⟨fillData gw gh gdata g0, alpha, ts⟩

/-- Model of `grid_synth::from_json`: the `catch` wraps every thrown
exception into the single "Failed to parse" error, and no partial
synthesizer escapes; an assertion failure (missing-key access) throws
nothing, so it is not caught and not wrapped — the call has no defined
result at all on that path. -/
def grid_synth.from_json (j : Json) : ParseOutcome grid_synth :=
  match fromJsonCore j with
  | .ok s => .ok s
  | .thrown e => .thrown ("Failed to parse grid_synth from JSON: " ++ e)
  | .undefined => .undefined

/-! ## Proof infrastructure

Every cell-writing loop in the source (the copy loop and the replacement
loop of the rule-based `apply`, the fill loop of the random `apply`, the
three guarded restore loops of `from_json`) is a doubly nested `for` over
ranges performing `grid::set` writes.  `writePairs`/`pairGrid` give them a
common normal form — a left fold over an explicit list of
(coordinate, optional value) write commands — about which the reusable
lemmas below are proved once. -/

/-- The flat row-major index a `grid::set`/`grid::get` with width `w`
touches at coordinates `(x, y)`. -/
def flatIdxW (w x y : Int) : Nat := (y * w + x).toNat

/-- Run a list of optional write commands left to right. -/
def writePairs (g : grid) (ps : List ((Int × Int) × Option Int)) : grid :=
  ps.foldl (fun g p =>
    match p.2 with
    | some v => g.set p.1.1 p.1.2 v
    | none => g) g

/-- The write-command list of a doubly nested loop: outer index `a < A`,
inner index `b < B`, write `val a b` (when present) at `coord a b`. -/
def pairGrid (A B : Nat) (coord : Nat → Nat → Int × Int)
    (val : Nat → Nat → Option Int) : List ((Int × Int) × Option Int) :=
  (List.range A).flatMap fun a => (List.range B).map fun b => (coord a b, val a b)

/-- The cumulative probability mass after walking the first `k` replacement
entries (`acc` after `k` iterations of the selection loop, started at 0). -/
def cumProb (repls : List replacement_entry) (k : Nat) : ℚ :=
  ((repls.take k).map (fun e => e.probability)).sum

/-- Cell `(u, v)` is overwritten when replacement grid `repl` is applied at
anchor `(i, j)`: some in-range, non-wildcard replacement cell lands on it. -/
def covers (repl : grid) (i j u v : Int) : Prop :=
  ∃ x : Nat, x < repl.m_width.toNat ∧ ∃ y : Nat, y < repl.m_height.toNat ∧
    i + (x : Int) = u ∧ j + (y : Int) = v ∧ repl.get (↑x) (↑y) ≠ wildcardId

instance (repl : grid) (i j u v : Int) : Decidable (covers repl i j u v) := by
  unfold covers
  infer_instance

theorem getD_set_self (l : List Int) (n : Nat) (v d : Int) (h : n < l.length) :
    (l.set n v).getD n d = v := by
  simp [List.getD_eq_getElem?_getD, List.getElem?_set_self h]

theorem getD_set_ne (l : List Int) (n m : Nat) (v d : Int) (h : n ≠ m) :
    (l.set n v).getD m d = l.getD m d := by
  simp [List.getD_eq_getElem?_getD, List.getElem?_set_ne h]

theorem listResize_length (l : List Int) (n : Nat) (v : Int) :
    (listResize l n v).length = n := by
  unfold listResize
  by_cases h : n ≤ l.length
  · simp [h]
  · simp [h]
    omega

theorem grid_set_width (g : grid) (x y v : Int) : (g.set x y v).m_width = g.m_width := rfl

theorem grid_set_height (g : grid) (x y v : Int) : (g.set x y v).m_height = g.m_height := rfl

theorem grid_set_length (g : grid) (x y v : Int) :
    (g.set x y v).m_data.length = g.m_data.length := by
  simp [grid.set]

theorem grid_set_eq_flat (g : grid) (x y v : Int) :
    g.set x y v = { g with m_data := g.m_data.set (flatIdxW g.m_width x y) v } := rfl

theorem grid_get_eq_flat (g : grid) (x y : Int) :
    g.get x y = g.m_data.getD (flatIdxW g.m_width x y) 0 := rfl

theorem flatIdxW_ofNat (W x y : Nat) : flatIdxW (↑W) (↑x) (↑y) = y * W + x := by
  unfold flatIdxW
  rw [← Int.natCast_mul, ← Int.natCast_add, Int.toNat_natCast]

theorem flatNat_inj (W a b a' b' : Nat) (hb : b < W) (hb' : b' < W)
    (h : a * W + b = a' * W + b') : a = a' ∧ b = b' := by
  have hW : 0 < W := Nat.lt_of_le_of_lt (Nat.zero_le _) hb
  have h3 : W * a + b = W * a' + b' := by
    rw [Nat.mul_comm W a, Nat.mul_comm W a']; exact h
  have h1 := Nat.mul_add_div hW a b
  have h2 := Nat.mul_add_div hW a' b'
  rw [h3, h2, Nat.div_eq_of_lt hb'] at h1
  rw [Nat.div_eq_of_lt hb] at h1
  have ha : a = a' := by omega
  subst ha
  exact ⟨rfl, by omega⟩

theorem foldl_flatMap {α β γ : Type} (l : List α) (f : α → List β)
    (g : γ → β → γ) (init : γ) :
    (l.flatMap f).foldl g init = l.foldl (fun c a => (f a).foldl g c) init := by
  induction l generalizing init with
  | nil => rfl
  | cons x xs ih => simp [List.flatMap_cons, List.foldl_append, ih]

theorem writePairs_append (g : grid) (ps qs : List ((Int × Int) × Option Int)) :
    writePairs g (ps ++ qs) = writePairs (writePairs g ps) qs := by
  simp [writePairs, List.foldl_append]

theorem writePairs_cons (g : grid) (p : (Int × Int) × Option Int)
    (ps : List ((Int × Int) × Option Int)) :
    writePairs g (p :: ps) =
      writePairs (match p.2 with | some v => g.set p.1.1 p.1.2 v | none => g) ps := rfl

theorem writePairs_width (g : grid) (ps : List ((Int × Int) × Option Int)) :
    (writePairs g ps).m_width = g.m_width := by
  induction ps generalizing g with
  | nil => rfl
  | cons p ps ih =>
    rw [writePairs_cons]
    cases hp : p.2 with
    | none => exact ih g
    | some v => rw [ih]; rfl

theorem writePairs_height (g : grid) (ps : List ((Int × Int) × Option Int)) :
    (writePairs g ps).m_height = g.m_height := by
  induction ps generalizing g with
  | nil => rfl
  | cons p ps ih =>
    rw [writePairs_cons]
    cases hp : p.2 with
    | none => exact ih g
    | some v => rw [ih]; rfl

theorem writePairs_length (g : grid) (ps : List ((Int × Int) × Option Int)) :
    (writePairs g ps).m_data.length = g.m_data.length := by
  induction ps generalizing g with
  | nil => rfl
  | cons p ps ih =>
    rw [writePairs_cons]
    cases hp : p.2 with
    | none => exact ih g
    | some v => rw [ih]; exact grid_set_length g _ _ _

theorem writePairs_getD_frame (g : grid) (ps : List ((Int × Int) × Option Int))
    (n : Nat) (d : Int)
    (h : ∀ p ∈ ps, ∀ v, p.2 = some v → flatIdxW g.m_width p.1.1 p.1.2 ≠ n) :
    (writePairs g ps).m_data.getD n d = g.m_data.getD n d := by
  induction ps generalizing g with
  | nil => rfl
  | cons p ps ih =>
    rw [writePairs_cons]
    cases hp : p.2 with
    | none =>
      exact ih g fun q hq v hv => h q (List.mem_cons_of_mem _ hq) v hv
    | some v =>
      rw [ih (g.set p.1.1 p.1.2 v)
        (fun q hq v' hv' => h q (List.mem_cons_of_mem _ hq) v' hv')]
      rw [grid_set_eq_flat]
      exact getD_set_ne _ _ _ _ _ (h p (List.mem_cons_self _ _) v hp)

theorem pairGrid_mem {A B : Nat} {coord : Nat → Nat → Int × Int}
    {val : Nat → Nat → Option Int} {p : (Int × Int) × Option Int} :
    p ∈ pairGrid A B coord val ↔
      ∃ a, a < A ∧ ∃ b, b < B ∧ p = (coord a b, val a b) := by
  simp only [pairGrid, List.mem_flatMap, List.mem_map, List.mem_range]
  constructor
  · rintro ⟨a, ha, b, hb, rfl⟩
    exact ⟨a, ha, b, hb, rfl⟩
  · rintro ⟨a, ha, b, hb, rfl⟩
    exact ⟨a, ha, b, hb, rfl⟩

theorem range_decomp (n i : Nat) (h : i < n) :
    List.range n = List.range i ++ i :: (List.range (n - i - 1)).map (fun t => i + (t + 1)) := by
  have hn : n = i + ((n - i - 1) + 1) := by omega
  conv_lhs => rw [hn]
  rw [List.range_add, List.range_succ_eq_map, List.map_cons, List.map_map]
  simp only [Nat.add_zero]
  rfl

theorem pairGrid_decomp (A B : Nat) (coord : Nat → Nat → Int × Int)
    (val : Nat → Nat → Option Int) (a₀ b₀ : Nat) (ha : a₀ < A) (hb : b₀ < B) :
    ∃ P₁ P₂, pairGrid A B coord val = P₁ ++ (coord a₀ b₀, val a₀ b₀) :: P₂ ∧
      (∀ p ∈ P₁, ∃ a, a < A ∧ ∃ b, b < B ∧ ¬(a = a₀ ∧ b = b₀) ∧
        p = (coord a b, val a b)) ∧
      (∀ p ∈ P₂, ∃ a, a < A ∧ ∃ b, b < B ∧ ¬(a = a₀ ∧ b = b₀) ∧
        p = (coord a b, val a b)) := by
  refine ⟨(List.range a₀).flatMap (fun a => (List.range B).map fun b => (coord a b, val a b)) ++
      (List.range b₀).map (fun b => (coord a₀ b, val a₀ b)),
    (List.range (B - b₀ - 1)).map
        ((fun b => (coord a₀ b, val a₀ b)) ∘ fun t => b₀ + (t + 1)) ++
      ((List.range (A - a₀ - 1)).map (fun t => a₀ + (t + 1))).flatMap
        (fun a => (List.range B).map fun b => (coord a b, val a b)),
    ?_, ?_, ?_⟩
  · show (List.range A).flatMap _ = _
    nth_rewrite 1 [range_decomp A a₀ ha]
    rw [List.flatMap_append, List.flatMap_cons]
    nth_rewrite 2 [range_decomp B b₀ hb]
    rw [List.map_append, List.map_cons, List.map_map]
    simp only [List.append_assoc, List.cons_append]
  · intro p hp
    rcases List.mem_append.1 hp with hp | hp
    · rw [List.mem_flatMap] at hp
      obtain ⟨a, haa, hp⟩ := hp
      rw [List.mem_map] at hp
      obtain ⟨b, hbb, rfl⟩ := hp
      rw [List.mem_range] at haa hbb
      exact ⟨a, by omega, b, hbb, by omega, rfl⟩
    · rw [List.mem_map] at hp
      obtain ⟨b, hbb, rfl⟩ := hp
      rw [List.mem_range] at hbb
      exact ⟨a₀, ha, b, by omega, by omega, rfl⟩
  · intro p hp
    rcases List.mem_append.1 hp with hp | hp
    · rw [List.mem_map] at hp
      obtain ⟨t, htt, rfl⟩ := hp
      rw [List.mem_range] at htt
      exact ⟨a₀, ha, b₀ + (t + 1), by omega, by omega, rfl⟩
    · rw [List.mem_flatMap] at hp
      obtain ⟨a, haa, hp⟩ := hp
      rw [List.mem_map] at haa
      obtain ⟨t, htt, rfl⟩ := haa
      rw [List.mem_map] at hp
      obtain ⟨b, hbb, rfl⟩ := hp
      rw [List.mem_range] at htt hbb
      exact ⟨a₀ + (t + 1), by omega, b, hbb, by omega, rfl⟩

theorem writePairs_cons_pair (g : grid) (c : Int × Int) (ov : Option Int)
    (ps : List ((Int × Int) × Option Int)) :
    writePairs g ((c, ov) :: ps) =
      writePairs (match ov with | some v => g.set c.1 c.2 v | none => g) ps := rfl

theorem writePairs_pairGrid_getD (g : grid) (A B : Nat)
    (coord : Nat → Nat → Int × Int) (val : Nat → Nat → Option Int)
    (a₀ b₀ : Nat) (ha : a₀ < A) (hb : b₀ < B) (d : Int)
    (hlen : flatIdxW g.m_width (coord a₀ b₀).1 (coord a₀ b₀).2 < g.m_data.length)
    (hinj : ∀ a, a < A → ∀ b, b < B → ¬(a = a₀ ∧ b = b₀) → val a b ≠ none →
      flatIdxW g.m_width (coord a b).1 (coord a b).2 ≠
        flatIdxW g.m_width (coord a₀ b₀).1 (coord a₀ b₀).2) :
    (writePairs g (pairGrid A B coord val)).m_data.getD
        (flatIdxW g.m_width (coord a₀ b₀).1 (coord a₀ b₀).2) d =
      (val a₀ b₀).getD
        (g.m_data.getD (flatIdxW g.m_width (coord a₀ b₀).1 (coord a₀ b₀).2) d) := by
  obtain ⟨P₁, P₂, hdec, hP₁, hP₂⟩ := pairGrid_decomp A B coord val a₀ b₀ ha hb
  rw [hdec, writePairs_append, writePairs_cons_pair]
  have hw₁ : (writePairs g P₁).m_width = g.m_width := writePairs_width g P₁
  have hl₁ : (writePairs g P₁).m_data.length = g.m_data.length := writePairs_length g P₁
  have hframe₁ : (writePairs g P₁).m_data.getD
      (flatIdxW g.m_width (coord a₀ b₀).1 (coord a₀ b₀).2) d =
      g.m_data.getD (flatIdxW g.m_width (coord a₀ b₀).1 (coord a₀ b₀).2) d := by
    refine writePairs_getD_frame g P₁ _ d fun q hq w hw => ?_
    obtain ⟨a, haa, b, hbb, hne, rfl⟩ := hP₁ q hq
    have hw' : val a b = some w := hw
    exact hinj a haa b hbb hne (by simp [hw'])
  cases hv : val a₀ b₀ with
  | none =>
    show (writePairs (writePairs g P₁) P₂).m_data.getD
        (flatIdxW g.m_width (coord a₀ b₀).1 (coord a₀ b₀).2) d =
      g.m_data.getD (flatIdxW g.m_width (coord a₀ b₀).1 (coord a₀ b₀).2) d
    have hframe₂ : (writePairs (writePairs g P₁) P₂).m_data.getD
        (flatIdxW g.m_width (coord a₀ b₀).1 (coord a₀ b₀).2) d =
        (writePairs g P₁).m_data.getD
          (flatIdxW g.m_width (coord a₀ b₀).1 (coord a₀ b₀).2) d := by
      refine writePairs_getD_frame _ P₂ _ d fun q hq w hw => ?_
      obtain ⟨a, haa, b, hbb, hne, rfl⟩ := hP₂ q hq
      have hw' : val a b = some w := hw
      rw [hw₁]
      exact hinj a haa b hbb hne (by simp [hw'])
    rw [hframe₂, hframe₁]
  | some v =>
    show (writePairs ((writePairs g P₁).set (coord a₀ b₀).1 (coord a₀ b₀).2 v)
        P₂).m_data.getD (flatIdxW g.m_width (coord a₀ b₀).1 (coord a₀ b₀).2) d = v
    have hset : ((writePairs g P₁).set (coord a₀ b₀).1 (coord a₀ b₀).2 v).m_data.getD
        (flatIdxW g.m_width (coord a₀ b₀).1 (coord a₀ b₀).2) d = v := by
      rw [grid_set_eq_flat, hw₁]
      exact getD_set_self _ _ _ _ (by rw [hl₁]; exact hlen)
    have hframe₂ : (writePairs ((writePairs g P₁).set (coord a₀ b₀).1 (coord a₀ b₀).2 v)
        P₂).m_data.getD (flatIdxW g.m_width (coord a₀ b₀).1 (coord a₀ b₀).2) d =
        ((writePairs g P₁).set (coord a₀ b₀).1 (coord a₀ b₀).2 v).m_data.getD
          (flatIdxW g.m_width (coord a₀ b₀).1 (coord a₀ b₀).2) d := by
      refine writePairs_getD_frame _ P₂ _ d fun q hq w hw => ?_
      obtain ⟨a, haa, b, hbb, hne, rfl⟩ := hP₂ q hq
      have hw' : val a b = some w := hw
      have hwidth : ((writePairs g P₁).set (coord a₀ b₀).1 (coord a₀ b₀).2 v).m_width =
          g.m_width := by rw [grid_set_width, hw₁]
      rw [hwidth]
      exact hinj a haa b hbb hne (by simp [hw'])
    rw [hframe₂, hset]

theorem writePairs_pairGrid_frame (g : grid) (A B : Nat)
    (coord : Nat → Nat → Int × Int) (val : Nat → Nat → Option Int)
    (n : Nat) (d : Int)
    (h : ∀ a, a < A → ∀ b, b < B → val a b ≠ none →
      flatIdxW g.m_width (coord a b).1 (coord a b).2 ≠ n) :
    (writePairs g (pairGrid A B coord val)).m_data.getD n d = g.m_data.getD n d := by
  refine writePairs_getD_frame g _ n d fun q hq v hv => ?_
  obtain ⟨a, haa, b, hbb, rfl⟩ := pairGrid_mem.1 hq
  have hv' : val a b = some v := hv
  exact h a haa b hbb (by simp [hv'])


theorem copyInto_eq_writePairs (o input : grid) :
    copyInto o input = writePairs o (pairGrid input.m_height.toNat input.m_width.toNat
      (fun y x => ((x : Int), (y : Int))) (fun y x => some (input.get x y))) := by
  rw [writePairs, pairGrid, foldl_flatMap]
  unfold copyInto
  simp only [List.foldl_map]

theorem fillData_eq_writePairs (w h : Int) (data : List Int) (g : grid) :
    fillData w h data g = writePairs g (pairGrid h.toNat w.toNat
      (fun y x => ((x : Int), (y : Int)))
      (fun y x => if y * w.toNat + x < data.length then
        some (data.getD (y * w.toNat + x) 0) else none)) := by
  rw [writePairs, pairGrid, foldl_flatMap]
  unfold fillData
  refine List.foldl_ext _ _ _ fun o y hy => ?_
  rw [List.foldl_map]
  refine List.foldl_ext _ _ _ fun o' x hx => ?_
  by_cases hc : y * w.toNat + x < data.length
  · simp [hc]
  · simp [hc]

theorem randomApply_eq_writePairs (al : List symbol) (input output : grid)
    (ints : Nat → Nat) :
    randomApply al input output ints = writePairs (ensureDims input output)
      (pairGrid input.m_width.toNat input.m_height.toNat
        (fun i j => ((i : Int), (j : Int)))
        (fun i j => some ((al.getD (ints (i * input.m_height.toNat + j)) ⟨0, ""⟩).id))) := by
  rw [writePairs, pairGrid, foldl_flatMap]
  unfold randomApply
  simp only [List.foldl_map]

theorem applyRepl_eq_writePairs (o repl : grid) (i j : Int) :
    applyRepl o repl i j = writePairs o
      (pairGrid repl.m_width.toNat repl.m_height.toNat
        (fun x y => (i + (x : Int), j + (y : Int)))
        (fun x y => if repl.get (↑x) (↑y) == wildcardId then none
          else some (repl.get (↑x) (↑y)))) := by
  rw [writePairs, pairGrid, foldl_flatMap]
  unfold applyRepl
  refine List.foldl_ext _ _ _ fun o' x hx => ?_
  rw [List.foldl_map]
  refine List.foldl_ext _ _ _ fun o'' y hy => ?_
  by_cases hc : repl.get (↑x) (↑y) == wildcardId
  · simp [hc]
  · simp [hc]

theorem flat_lt (W H x y : Nat) (hx : x < W) (hy : y < H) : y * W + x < W * H :=
  calc y * W + x < y * W + W := by omega
    _ = (y + 1) * W := by ring
    _ ≤ H * W := Nat.mul_le_mul_right W (by omega)
    _ = W * H := Nat.mul_comm H W

theorem writePairs_rowmajor_getD (g : grid) (W H : Nat) (hw : g.m_width = (W : Int))
    (hlen : W * H ≤ g.m_data.length) (val : Nat → Nat → Option Int)
    (x y : Nat) (hx : x < W) (hy : y < H) :
    (writePairs g (pairGrid H W (fun y x => ((x : Int), (y : Int))) val)).m_data.getD
        (y * W + x) 0 =
      (val y x).getD (g.m_data.getD (y * W + x) 0) := by
  have hflat : ∀ a b : Nat, flatIdxW g.m_width
      ((fun y x => ((x : Int), (y : Int))) a b).1
      ((fun y x => ((x : Int), (y : Int))) a b).2 = a * W + b := by
    intro a b
    rw [hw]
    exact flatIdxW_ofNat W b a
  have h := writePairs_pairGrid_getD g H W (fun y x => ((x : Int), (y : Int))) val
    y x hy hx 0 (by rw [hflat]; exact Nat.lt_of_lt_of_le (flat_lt W H x y hx hy) hlen)
    (fun a haa b hbb hne hv => by
      rw [hflat, hflat]
      intro hcontra
      exact hne (by
        have := flatNat_inj W a b y x hbb hx hcontra
        exact ⟨this.1, this.2⟩))
  rw [hflat] at h
  exact h

theorem writePairs_colmajor_getD (g : grid) (W H : Nat) (hw : g.m_width = (W : Int))
    (hlen : W * H ≤ g.m_data.length) (val : Nat → Nat → Option Int)
    (x y : Nat) (hx : x < W) (hy : y < H) :
    (writePairs g (pairGrid W H (fun i j => ((i : Int), (j : Int))) val)).m_data.getD
        (y * W + x) 0 =
      (val x y).getD (g.m_data.getD (y * W + x) 0) := by
  have hflat : ∀ a b : Nat, flatIdxW g.m_width
      ((fun i j => ((i : Int), (j : Int))) a b).1
      ((fun i j => ((i : Int), (j : Int))) a b).2 = b * W + a := by
    intro a b
    rw [hw]
    exact flatIdxW_ofNat W a b
  have h := writePairs_pairGrid_getD g W H (fun i j => ((i : Int), (j : Int))) val
    x y hx hy 0 (by rw [hflat]; exact Nat.lt_of_lt_of_le (flat_lt W H x y hx hy) hlen)
    (fun a haa b hbb hne hv => by
      rw [hflat, hflat]
      intro hcontra
      exact hne (by
        have := flatNat_inj W b a y x haa hx hcontra
        exact ⟨this.2, this.1⟩))
  rw [hflat] at h
  exact h

theorem ensureDims_spec (input output : grid) (hout : output.wf) :
    (ensureDims input output).m_width = input.m_width ∧
    (ensureDims input output).m_height = input.m_height ∧
    (ensureDims input output).m_data.length = (input.m_width * input.m_height).toNat := by
  unfold ensureDims
  by_cases hc : output.m_width == input.m_width && output.m_height == input.m_height
  · rw [if_pos hc]
    rw [Bool.and_eq_true, beq_iff_eq, beq_iff_eq] at hc
    refine ⟨hc.1, hc.2, ?_⟩
    rw [hout.2.2, hc.1, hc.2]
  · rw [if_neg hc]
    exact ⟨rfl, rfl, listResize_length _ _ _⟩

theorem grid_get_ofNat (g : grid) (W : Nat) (hw : g.m_width = (W : Int)) (x y : Nat) :
    g.get (x : Int) (y : Int) = g.m_data.getD (y * W + x) 0 := by
  rw [grid_get_eq_flat, hw, flatIdxW_ofNat]

theorem copyInto_width (o input : grid) : (copyInto o input).m_width = o.m_width := by
  rw [copyInto_eq_writePairs]; exact writePairs_width _ _

theorem copyInto_height (o input : grid) : (copyInto o input).m_height = o.m_height := by
  rw [copyInto_eq_writePairs]; exact writePairs_height _ _

theorem copyInto_length (o input : grid) :
    (copyInto o input).m_data.length = o.m_data.length := by
  rw [copyInto_eq_writePairs]; exact writePairs_length _ _

theorem copyInto_getD_aux (o input : grid) (W H : Nat)
    (hwo : o.m_width = (W : Int)) (hwi : input.m_width = (W : Int))
    (hhi : input.m_height = (H : Int)) (hlen : W * H ≤ o.m_data.length)
    (x y : Nat) (hx : x < W) (hy : y < H) :
    (copyInto o input).m_data.getD (y * W + x) 0 = input.get (x : Int) (y : Int) := by
  rw [copyInto_eq_writePairs]
  have hW' : input.m_width.toNat = W := by rw [hwi]; exact Int.toNat_natCast W
  have hH' : input.m_height.toNat = H := by rw [hhi]; exact Int.toNat_natCast H
  rw [hW', hH']
  rw [writePairs_rowmajor_getD o W H hwo hlen _ x y hx hy]
  rfl

theorem copyInto_eq_input (o input : grid) (hin : input.wf)
    (hwo : o.m_width = input.m_width) (hho : o.m_height = input.m_height)
    (hlen : o.m_data.length = (input.m_width * input.m_height).toNat) :
    copyInto o input = input := by
  obtain ⟨hiw, hih, hil⟩ := hin
  set W := input.m_width.toNat with hWdef
  set H := input.m_height.toNat with hHdef
  have hwcast : input.m_width = (W : Int) := (Int.toNat_of_nonneg hiw).symm
  have hhcast : input.m_height = (H : Int) := (Int.toNat_of_nonneg hih).symm
  have hWH : (input.m_width * input.m_height).toNat = W * H := by
    rw [hwcast, hhcast, ← Int.natCast_mul, Int.toNat_natCast]
  have hlen' : o.m_data.length = W * H := by rw [hlen, hWH]
  have hillen : input.m_data.length = W * H := by rw [hil, hWH]
  have hW : o.m_width = (W : Int) := by rw [hwo, hwcast]
  cases o with
  | mk ow oh od =>
    cases input with
    | mk iw ih idata =>
      simp only at hwo hho hW hwcast hhcast
      have hwidth : (copyInto ⟨ow, oh, od⟩ ⟨iw, ih, idata⟩).m_width = iw := by
        rw [copyInto_width]; exact hwo
      have hheight : (copyInto ⟨ow, oh, od⟩ ⟨iw, ih, idata⟩).m_height = ih := by
        rw [copyInto_height]; exact hho
      have hlength : (copyInto ⟨ow, oh, od⟩ ⟨iw, ih, idata⟩).m_data.length = W * H := by
        rw [copyInto_length]; exact hlen'
      have hdata : (copyInto ⟨ow, oh, od⟩ ⟨iw, ih, idata⟩).m_data = idata := by
        refine List.ext_getElem (by rw [hlength, ← hillen]) fun n h₁ h₂ => ?_
        have h₁' : n < W * H := by rw [← hlength]; exact h₁
        have hWpos : 0 < W := by
          rcases Nat.eq_zero_or_pos W with hW0 | hWpos
          · rw [hW0] at h₁'; omega
          · exact hWpos
        set x := n % W with hxdef
        set y := n / W with hydef
        have hx : x < W := Nat.mod_lt n hWpos
        have hy : y < H := by
          rw [hydef]
          rw [Nat.div_lt_iff_lt_mul hWpos]
          exact Nat.lt_of_lt_of_le h₁' (Nat.le_of_eq (Nat.mul_comm W H))
        have hn : y * W + x = n := by
          rw [hxdef, hydef, Nat.mul_comm]
          exact Nat.div_add_mod n W
        have hgetD := copyInto_getD_aux ⟨ow, oh, od⟩ ⟨iw, ih, idata⟩ W H hW hwcast
          hhcast (by rw [hlen']) x y hx hy
        rw [hn] at hgetD
        rw [← List.getD_eq_getElem _ 0 h₁, hgetD, grid_get_ofNat _ W hwcast, hn,
          List.getD_eq_getElem _ 0 h₂]
      calc copyInto ⟨ow, oh, od⟩ ⟨iw, ih, idata⟩ =
          ⟨(copyInto ⟨ow, oh, od⟩ ⟨iw, ih, idata⟩).m_width,
           (copyInto ⟨ow, oh, od⟩ ⟨iw, ih, idata⟩).m_height,
           (copyInto ⟨ow, oh, od⟩ ⟨iw, ih, idata⟩).m_data⟩ := rfl
        _ = ⟨iw, ih, idata⟩ := by rw [hwidth, hheight, hdata]


theorem cumProb_zero (repls : List replacement_entry) : cumProb repls 0 = 0 := rfl

theorem cumProb_cons_succ (e : replacement_entry) (rest : List replacement_entry)
    (n : Nat) :
    cumProb (e :: rest) (n + 1) = e.probability + cumProb rest n := by
  simp [cumProb, List.take_succ_cons]

theorem selectReplacement_mem (repls : List replacement_entry) (acc r : ℚ) (g : grid)
    (h : selectReplacement repls acc r = some g) : ∃ e ∈ repls, g = e.replacement := by
  induction repls generalizing acc with
  | nil => exact absurd h (by simp [selectReplacement])
  | cons e rest ih =>
    simp only [selectReplacement] at h
    by_cases hc : r ≤ acc + e.probability
    · rw [if_pos hc] at h
      exact ⟨e, List.mem_cons_self _ _, (Option.some.injEq _ _ ▸ h).symm⟩
    · rw [if_neg hc] at h
      obtain ⟨e', he', rfl⟩ := ih _ h
      exact ⟨e', List.mem_cons_of_mem _ he', rfl⟩

theorem selectReplacement_none_iff (repls : List replacement_entry) (acc r : ℚ) :
    selectReplacement repls acc r = none ↔
      ∀ n, n < repls.length → acc + cumProb repls (n + 1) < r := by
  induction repls generalizing acc with
  | nil => simp [selectReplacement]
  | cons e rest ih =>
    simp only [selectReplacement]
    by_cases hc : r ≤ acc + e.probability
    · rw [if_pos hc]
      constructor
      · intro h
        exact absurd h (by simp)
      · intro h
        have h0 := h 0 (by simp)
        rw [cumProb_cons_succ, cumProb_zero] at h0
        exact absurd hc (by linarith)
    · rw [if_neg hc]
      rw [ih (acc + e.probability)]
      constructor
      · intro h n hn
        cases n with
        | zero =>
          rw [cumProb_cons_succ, cumProb_zero]
          push_neg at hc
          linarith
        | succ m =>
          have := h m (by simpa using hn)
          rw [cumProb_cons_succ]
          linarith
      · intro h m hm
        have := h (m + 1) (by simp; omega)
        rw [cumProb_cons_succ] at this
        linarith

theorem selectReplacement_first_hit (repls : List replacement_entry) (acc r : ℚ)
    (n : Nat) (hn : n < repls.length)
    (hhit : r ≤ acc + cumProb repls (n + 1))
    (hbefore : ∀ m, m < n → acc + cumProb repls (m + 1) < r) :
    selectReplacement repls acc r = some (repls.get ⟨n, hn⟩).replacement := by
  induction repls generalizing acc n with
  | nil => simp at hn
  | cons e rest ih =>
    simp only [selectReplacement]
    cases n with
    | zero =>
      rw [cumProb_cons_succ, cumProb_zero, add_zero] at hhit
      rw [if_pos hhit]
      rfl
    | succ m =>
      have h0 : acc + e.probability < r := by
        have := hbefore 0 (Nat.succ_pos m)
        rwa [cumProb_cons_succ, cumProb_zero, add_zero] at this
      rw [if_neg (not_le.2 h0)]
      have hm : m < rest.length := by simpa using hn
      have := ih (acc + e.probability) m hm
        (by rw [cumProb_cons_succ] at hhit; linarith)
        (fun k hk => by
          have := hbefore (k + 1) (by omega)
          rw [cumProb_cons_succ] at this
          linarith)
      rw [this]
      rfl

theorem matchAt_iff (input search : grid) (i j : Int) :
    matchAt input search i j = true ↔
      ∀ x : Nat, x < search.m_width.toNat → ∀ y : Nat, y < search.m_height.toNat →
        search.get (↑x) (↑y) = wildcardId ∨
          input.get (i + ↑x) (j + ↑y) = search.get (↑x) (↑y) := by
  simp only [matchAt, List.all_eq_true, List.mem_range, Bool.or_eq_true, beq_iff_eq]

theorem anchorList_mem {w h : Int} {a : Int × Int} :
    a ∈ anchorList w h ↔
      ∃ i : Nat, i < w.toNat ∧ ∃ j : Nat, j < h.toNat ∧ a = ((i : Int), (j : Int)) := by
  simp only [anchorList, List.mem_flatMap, List.mem_map, List.mem_range]
  constructor
  · rintro ⟨i, hi, j, hj, rfl⟩
    exact ⟨i, hi, j, hj, rfl⟩
  · rintro ⟨i, hi, j, hj, rfl⟩
    exact ⟨i, hi, j, hj, rfl⟩

theorem anchorStep_not_matched (t : rule_based_transformation) (input : grid)
    (rs : Nat → ℚ) (st : grid × Nat) (a : Int × Int)
    (h : matchedAnchor input t.m_search a = false) :
    anchorStep t input rs st a = st := by
  simp [anchorStep, h]

theorem anchorStep_matched (t : rule_based_transformation) (input : grid)
    (rs : Nat → ℚ) (st : grid × Nat) (a : Int × Int)
    (h : matchedAnchor input t.m_search a = true) :
    anchorStep t input rs st a =
      (match selectReplacement t.m_replacement 0 (rs st.2) with
       | some repl => applyRepl st.1 repl a.1 a.2
       | none => st.1, st.2 + 1) := by
  simp [anchorStep, h]

theorem scan_counter (t : rule_based_transformation) (input : grid) (rs : Nat → ℚ)
    (as : List (Int × Int)) (st : grid × Nat) :
    (as.foldl (anchorStep t input rs) st).2 =
      st.2 + as.countP (matchedAnchor input t.m_search) := by
  induction as generalizing st with
  | nil => simp
  | cons a as ih =>
    rw [List.foldl_cons, ih, List.countP_cons]
    by_cases h : matchedAnchor input t.m_search a = true
    · rw [anchorStep_matched t input rs st a h]
      simp [h]
      omega
    · rw [anchorStep_not_matched t input rs st a (by simpa using h)]
      simp [h]


theorem in_bounds_iff (g : grid) (x y : Int) :
    g.in_bounds x y = true ↔
      0 ≤ x ∧ x < g.m_width ∧ 0 ≤ y ∧ y < g.m_height := by
  simp only [grid.in_bounds, Bool.and_eq_true, decide_eq_true_eq]
  tauto

theorem fitsAt_iff (input search : grid) (i j : Int) :
    fitsAt input search i j = true ↔
      0 ≤ i + search.m_width - 1 ∧ i + search.m_width - 1 < input.m_width ∧
      0 ≤ j + search.m_height - 1 ∧ j + search.m_height - 1 < input.m_height := by
  rw [fitsAt, in_bounds_iff]

theorem matchedAnchor_fits (input search : grid) (a : Int × Int)
    (h : matchedAnchor input search a = true) : fitsAt input search a.1 a.2 = true := by
  rw [matchedAnchor, Bool.and_eq_true] at h
  exact h.1

theorem matchedAnchor_matches (input search : grid) (a : Int × Int)
    (h : matchedAnchor input search a = true) : matchAt input search a.1 a.2 = true := by
  rw [matchedAnchor, Bool.and_eq_true] at h
  exact h.2

theorem flatIdxW_offset (W I J x y : Nat) :
    flatIdxW ((W : Int)) ((I : Int) + (x : Int)) ((J : Int) + (y : Int)) =
      (J + y) * W + (I + x) := by
  unfold flatIdxW
  rw [← Int.natCast_add, ← Int.natCast_add, ← Int.natCast_mul, ← Int.natCast_add,
    Int.toNat_natCast]

theorem applyRepl_width (o repl : grid) (i j : Int) :
    (applyRepl o repl i j).m_width = o.m_width := by
  rw [applyRepl_eq_writePairs]; exact writePairs_width _ _

theorem applyRepl_height (o repl : grid) (i j : Int) :
    (applyRepl o repl i j).m_height = o.m_height := by
  rw [applyRepl_eq_writePairs]; exact writePairs_height _ _

theorem applyRepl_length (o repl : grid) (i j : Int) :
    (applyRepl o repl i j).m_data.length = o.m_data.length := by
  rw [applyRepl_eq_writePairs]; exact writePairs_length _ _

theorem applyRepl_frame (o repl : grid) (I J W u v : Nat)
    (hw : o.m_width = (W : Int)) (hIW : I + repl.m_width.toNat ≤ W) (hu : u < W)
    (hnc : ¬ covers repl (↑I) (↑J) (↑u) (↑v)) :
    (applyRepl o repl (↑I) (↑J)).get (↑u) (↑v) = o.get (↑u) (↑v) := by
  rw [applyRepl_eq_writePairs, grid_get_eq_flat, grid_get_eq_flat, writePairs_width]
  refine writePairs_pairGrid_frame o _ _ _ _ _ 0 fun x hx y hy hval => ?_
  rw [hw]
  show flatIdxW ((W : Int)) ((I : Int) + (x : Int)) ((J : Int) + (y : Int)) ≠
    flatIdxW ((W : Int)) (↑u) (↑v)
  rw [flatIdxW_offset, flatIdxW_ofNat]
  intro hcontra
  have hin := flatNat_inj W (J + y) (I + x) v u (by omega) hu hcontra
  apply hnc
  refine ⟨x, hx, y, hy, ?_, ?_, ?_⟩
  · have := hin.2
    omega
  · have := hin.1
    omega
  · by_cases hwc : repl.get (↑x) (↑y) == wildcardId
    · exact absurd (by simp [hwc]) hval
    · simpa using hwc

theorem applyRepl_get (o repl : grid) (I J W : Nat)
    (hw : o.m_width = (W : Int)) (hIW : I + repl.m_width.toNat ≤ W)
    (x y : Nat) (hx : x < repl.m_width.toNat) (hy : y < repl.m_height.toNat)
    (hflat : (J + y) * W + (I + x) < o.m_data.length) :
    (applyRepl o repl (↑I) (↑J)).get ((I : Int) + ↑x) ((J : Int) + ↑y) =
      if repl.get (↑x) (↑y) = wildcardId then o.get ((I : Int) + ↑x) ((J : Int) + ↑y)
      else repl.get (↑x) (↑y) := by
  rw [applyRepl_eq_writePairs, grid_get_eq_flat, writePairs_width, hw]
  rw [show flatIdxW ((W : Int)) ((I : Int) + (x : Int)) ((J : Int) + (y : Int)) =
    (J + y) * W + (I + x) from flatIdxW_offset W I J x y]
  have h := writePairs_pairGrid_getD o repl.m_width.toNat repl.m_height.toNat
    (fun x y => ((I : Int) + (x : Int), (J : Int) + (y : Int)))
    (fun x y => if repl.get (↑x) (↑y) == wildcardId then none
      else some (repl.get (↑x) (↑y)))
    x y hx hy 0
    (by rw [hw]
        show flatIdxW ((W : Int)) ((I : Int) + (x : Int)) ((J : Int) + (y : Int)) <
          o.m_data.length
        rw [flatIdxW_offset]
        exact hflat)
    (by intro a haa b hbb hne hval
        rw [hw]
        show flatIdxW ((W : Int)) ((I : Int) + (a : Int)) ((J : Int) + (b : Int)) ≠
          flatIdxW ((W : Int)) ((I : Int) + (x : Int)) ((J : Int) + (y : Int))
        rw [flatIdxW_offset, flatIdxW_offset]
        intro hcontra
        have hin := flatNat_inj W (J + b) (I + a) (J + y) (I + x)
          (by omega) (by omega) hcontra
        exact hne ⟨by omega, by omega⟩)
  rw [hw] at h
  have hsame : flatIdxW ((W : Int))
      ((fun x y => ((I : Int) + (x : Int), (J : Int) + (y : Int))) x y).1
      ((fun x y => ((I : Int) + (x : Int), (J : Int) + (y : Int))) x y).2 =
      (J + y) * W + (I + x) := by
    show flatIdxW ((W : Int)) ((I : Int) + (x : Int)) ((J : Int) + (y : Int)) = _
    rw [flatIdxW_offset]
  rw [hsame] at h
  rw [h]
  have hoget : o.get ((I : Int) + ↑x) ((J : Int) + ↑y) =
      o.m_data.getD ((J + y) * W + (I + x)) 0 := by
    rw [grid_get_eq_flat, hw]
    show o.m_data.getD (flatIdxW ((W : Int)) ((I : Int) + (x : Int))
      ((J : Int) + (y : Int))) 0 = _
    rw [flatIdxW_offset]
  by_cases hwc : repl.get (↑x) (↑y) == wildcardId
  · rw [if_pos (by simpa using hwc), hoget]
    simp [hwc]
  · rw [if_neg (by simpa using hwc)]
    simp [hwc]


theorem scan_frame (t : rule_based_transformation) (input : grid) (rs : Nat → ℚ)
    (W H : Nat) (hWin : input.m_width = (W : Int)) (hHin : input.m_height = (H : Int))
    (hrep : ∀ e ∈ t.m_replacement,
      e.replacement.m_width ≤ t.m_search.m_width ∧
      e.replacement.m_height ≤ t.m_search.m_height)
    (u v : Nat) (hu : u < W)
    (hnc : ∀ I : Nat, I < W → ∀ J : Nat, J < H →
      matchedAnchor input t.m_search ((I : Int), (J : Int)) = true →
      ∀ e ∈ t.m_replacement, ¬ covers e.replacement (↑I) (↑J) (↑u) (↑v))
    (as : List (Int × Int)) (st : grid × Nat)
    (has : ∀ a ∈ as, ∃ I : Nat, I < W ∧ ∃ J : Nat, J < H ∧ a = ((I : Int), (J : Int)))
    (hst : st.1.m_width = (W : Int)) :
    (as.foldl (anchorStep t input rs) st).1.m_width = (W : Int) ∧
    (as.foldl (anchorStep t input rs) st).1.m_height = st.1.m_height ∧
    (as.foldl (anchorStep t input rs) st).1.m_data.length = st.1.m_data.length ∧
    (as.foldl (anchorStep t input rs) st).1.get (↑u) (↑v) = st.1.get (↑u) (↑v) := by
  induction as generalizing st with
  | nil => exact ⟨hst, rfl, rfl, rfl⟩
  | cons a as ih =>
    rw [List.foldl_cons]
    obtain ⟨I, hI, J, hJ, rfl⟩ := has _ (List.mem_cons_self _ _)
    have has' : ∀ a ∈ as, ∃ I : Nat, I < W ∧ ∃ J : Nat, J < H ∧
        a = ((I : Int), (J : Int)) := fun a ha => has a (List.mem_cons_of_mem _ ha)
    by_cases hm : matchedAnchor input t.m_search ((I : Int), (J : Int)) = true
    · rw [anchorStep_matched _ _ _ _ _ hm]
      cases hsel : selectReplacement t.m_replacement 0 (rs st.2) with
      | none =>
        have := ih (st.1, st.2 + 1) has' hst
        exact this
      | some repl =>
        obtain ⟨e, he, rfl⟩ := selectReplacement_mem _ _ _ _ hsel
        have hdims := hrep e he
        have hfits := matchedAnchor_fits _ _ _ hm
        rw [fitsAt_iff] at hfits
        rw [hWin, hHin] at hfits
        have hIW : I + e.replacement.m_width.toNat ≤ W := by
          have h1 := hfits.1
          have h2 := hfits.2.1
          have h3 := hdims.1
          omega
        have hframe := applyRepl_frame st.1 e.replacement I J W u v hst hIW hu
          (hnc I hI J hJ hm e he)
        have hstep : (applyRepl st.1 e.replacement (↑I) (↑J), st.2 + 1).1.m_width =
            (W : Int) := by
          show (applyRepl st.1 e.replacement (↑I) (↑J)).m_width = (W : Int)
          rw [applyRepl_width]
          exact hst
        have hrest := ih (applyRepl st.1 e.replacement (↑I) (↑J), st.2 + 1) has' hstep
        refine ⟨hrest.1, ?_, ?_, ?_⟩
        · rw [hrest.2.1]
          show (applyRepl st.1 e.replacement (↑I) (↑J)).m_height = st.1.m_height
          exact applyRepl_height _ _ _ _
        · rw [hrest.2.2.1]
          show (applyRepl st.1 e.replacement (↑I) (↑J)).m_data.length =
            st.1.m_data.length
          exact applyRepl_length _ _ _ _
        · rw [hrest.2.2.2]
          exact hframe
    · rw [anchorStep_not_matched _ _ _ _ _ (by simpa using hm)]
      exact ih st has' hst


theorem rule_apply_init (input output : grid) (hin : input.wf) (hout : output.wf) :
    copyInto (ensureDims input output) input = input := by
  obtain ⟨hw, hh, hl⟩ := ensureDims_spec input output hout
  exact copyInto_eq_input _ _ hin hw hh hl

theorem listResize_nil (n : Nat) (v : Int) :
    listResize [] n v = List.replicate n v := by
  unfold listResize
  by_cases h : n ≤ 0
  · simp [h]
    omega
  · simp [List.length_nil, h]

theorem scan_all_unmatched (t : rule_based_transformation) (input : grid)
    (rs : Nat → ℚ) (as : List (Int × Int)) (st : grid × Nat)
    (h : ∀ a ∈ as, matchedAnchor input t.m_search a = false) :
    as.foldl (anchorStep t input rs) st = st := by
  induction as generalizing st with
  | nil => rfl
  | cons a as ih =>
    rw [List.foldl_cons, anchorStep_not_matched _ _ _ _ _ (h a (List.mem_cons_self _ _))]
    exact ih st fun a ha => h a (List.mem_cons_of_mem _ ha)

theorem fitsAt_false_of_oversized (input search : grid) (i j : Int)
    (hi : 0 ≤ i) (hj : 0 ≤ j)
    (h : input.m_width < search.m_width ∨ input.m_height < search.m_height) :
    fitsAt input search i j = false := by
  rw [← Bool.not_eq_true, fitsAt_iff]
  rintro ⟨h1, h2, h3, h4⟩
  rcases h with h | h
  · omega
  · omega

/-- C4: `synthesize` on a synthesizer whose transformations are all disabled
(including the empty pipeline) is the identity: disabled transformations are
skipped entirely, no buffer is copied back, and the stored grid — indeed the
whole state — is left bit-for-bit unchanged. -/
theorem C4_synthesize_all_disabled (s : grid_synth) (rngs : Nat → rngSource)
    (h : ∀ t ∈ s.m_transformations, t.m_enabled = false) :
    s.synthesize rngs = s := by
  have hloop : ∀ (ts : List transform) (inp out : grid) (k : Nat),
      (∀ t ∈ ts, t.m_enabled = false) →
      synthLoop s.m_alphabet rngs ts inp out false k = (inp, out, false) := by
    intro ts
    induction ts with
    | nil => intro inp out k _; rfl
    | cons t rest ih =>
      intro inp out k hd
      rw [synthLoop, hd t (List.mem_cons_self _ _)]
      simp only [Bool.false_eq_true, if_false]
      exact ih inp out k fun t' ht' => hd t' (List.mem_cons_of_mem _ ht')
  unfold grid_synth.synthesize
  simp only [hloop s.m_transformations s.m_grid
    ((grid.mk 0 0 []).resize s.m_grid.m_width s.m_grid.m_height 0) 0 h,
    Bool.false_eq_true, if_false]

/-- C4 witness: a concrete synthesizer with one disabled transformation is
returned unchanged by `synthesize`. -/
theorem C4_synthesize_all_disabled_witness :
    grid_synth.synthesize
        ⟨grid.mk 2 2 [1, 2, 3, 4], [⟨1, "F"⟩],
          [⟨"noise", false, transformKind.random⟩]⟩
        (fun _ => ⟨fun _ => 0, fun _ => 0⟩) =
      ⟨grid.mk 2 2 [1, 2, 3, 4], [⟨1, "F"⟩],
        [⟨"noise", false, transformKind.random⟩]⟩ :=
  C4_synthesize_all_disabled _ _ (by decide)

/-- C6 counterexample: `resize` does not refill existing cells with the
default: resizing a 1×1 grid holding 3 to the same (positive) dimensions
with default 7 leaves the cell at 3, so not every cell equals the default
after a resize. -/
theorem C6_counterexample :
    0 < (1 : Int) ∧ ((grid.mk 1 1 [3]).resize 1 1 7).get 0 0 = 3 ∧
      ((grid.mk 1 1 [3]).resize 1 1 7).get 0 0 ≠ 7 := by decide

/-- C6 (amended): `resize` sets the dimensions and resizes the backing
vector to `new_width*new_height` entries à la `std::vector::resize`: cells
whose flat index survives keep their previous value (truncation when
shrinking), and only the newly appended cells (when growing) are filled
with the caller's default. -/
theorem C6_resize_semantics (g : grid) (w h d : Int) (_hw : 0 < w) (_hh : 0 < h) :
    (g.resize w h d).m_width = w ∧ (g.resize w h d).m_height = h ∧
    (g.resize w h d).m_data.length = (w * h).toNat ∧
    (∀ n : Nat, n < (w * h).toNat → n < g.m_data.length →
      (g.resize w h d).m_data.getD n 0 = g.m_data.getD n 0) ∧
    (∀ n : Nat, g.m_data.length ≤ n → n < (w * h).toNat →
      (g.resize w h d).m_data.getD n 0 = d) := by
  refine ⟨rfl, rfl, listResize_length _ _ _, ?_, ?_⟩
  · intro n hn hlen
    show (listResize g.m_data (w * h).toNat d).getD n 0 = _
    unfold listResize
    by_cases hc : (w * h).toNat ≤ g.m_data.length
    · rw [if_pos hc]
      rw [List.getD_eq_getElem?_getD, List.getD_eq_getElem?_getD,
        List.getElem?_take_of_lt hn]
    · rw [if_neg hc]
      rw [List.getD_eq_getElem?_getD, List.getD_eq_getElem?_getD,
        List.getElem?_append_left hlen]
  · intro n hge hlt
    show (listResize g.m_data (w * h).toNat d).getD n 0 = d
    unfold listResize
    by_cases hc : (w * h).toNat ≤ g.m_data.length
    · omega
    · rw [if_neg hc]
      rw [List.getD_eq_getElem?_getD, List.getElem?_append_right hge,
        List.getElem?_replicate]
      rw [if_pos (by omega)]
      rfl

/-- C6 witness: resizing a 2×1 grid `[5, 6]` to 2×2 with default 9 keeps the
surviving cells and fills only the appended ones. -/
theorem C6_resize_semantics_witness :
    ((grid.mk 2 1 [5, 6]).resize 2 2 9).m_data.length = 4 ∧
    ((grid.mk 2 1 [5, 6]).resize 2 2 9).m_data.getD 0 0 = 5 ∧
    ((grid.mk 2 1 [5, 6]).resize 2 2 9).m_data.getD 3 0 = 9 := by
  have h := C6_resize_semantics (grid.mk 2 1 [5, 6]) 2 2 9 (by decide) (by decide)
  refine ⟨?_, ?_, h.2.2.2.2 3 (by decide) (by decide)⟩
  · rw [h.2.2.1]
    decide
  · rw [h.2.2.2.1 0 (by decide) (by decide)]
    decide

/-- C7 counterexample: construction with non-positive width is not rejected:
`grid(0, 5, 7)` succeeds (an empty 0×5 grid), refuting "fails exactly when
width or height is non-positive". -/
theorem C7_counterexample :
    ¬ 0 < (0 : Int) ∧ gridNew 0 5 7 = some (grid.mk 0 5 []) := by decide

/-- C7 (amended): the constructor performs no dimension validation: it
succeeds exactly when the `int` product `w*h` is nonnegative (a negative
product converts to a huge `size_t` and the vector allocation throws), in
particular for a zero or doubly-negative dimension; on success the grid
holds `(w*h).toNat` cells all equal to the default. -/
theorem C7_gridNew_semantics (w h d : Int) :
    ((gridNew w h d).isSome ↔ 0 ≤ w * h) ∧
    (∀ g, gridNew w h d = some g →
      g.m_width = w ∧ g.m_height = h ∧
      g.m_data = List.replicate (w * h).toNat d) := by
  constructor
  · unfold gridNew
    by_cases hc : w * h < 0
    all_goals simp [hc]
    all_goals omega
  · intro g hg
    unfold gridNew at hg
    by_cases hc : w * h < 0
    · rw [if_pos hc] at hg
      exact Option.noConfusion hg
    · rw [if_neg hc, Option.some.injEq] at hg
      rw [← hg]
      exact ⟨rfl, rfl, by show listResize [] (w * h).toNat d = _; rw [listResize_nil]⟩

/-- C7 witness: `grid(2, 3, 7)` succeeds and holds six cells of 7. -/
theorem C7_gridNew_semantics_witness :
    (gridNew 2 3 7).isSome ∧
    (grid.mk 2 3 [7, 7, 7, 7, 7, 7]).m_data =
      List.replicate ((2 : Int) * 3).toNat 7 := by
  refine ⟨(C7_gridNew_semantics 2 3 7).1.2 (by decide), ?_⟩
  exact ((C7_gridNew_semantics 2 3 7).2 (grid.mk 2 3 [7, 7, 7, 7, 7, 7])
    (by decide)).2.2

/-- C10: the replacement accessors are total over indices: outside
`[0, replacement_count)` the probability accessor returns 0, the grid
accessor returns the static default-constructed `empty_grid`, and
`update_replacement` is a no-op; inside the range they return/overwrite
exactly the stored entry. -/
theorem C10_replacement_accessors (t : rule_based_transformation) (index : Int)
    (p : ℚ) (r : grid) :
    ((index < 0 ∨ (t.m_replacement.length : Int) ≤ index) →
      t.get_replacement_probability index = 0 ∧
      t.get_replacement_grid index = defaultGrid ∧
      t.update_replacement index p r = t) ∧
    (0 ≤ index → index < (t.m_replacement.length : Int) →
      ∀ hn : index.toNat < t.m_replacement.length,
      t.get_replacement_probability index =
        (t.m_replacement.get ⟨index.toNat, hn⟩).probability ∧
      t.get_replacement_grid index =
        (t.m_replacement.get ⟨index.toNat, hn⟩).replacement ∧
      (t.update_replacement index p r).m_search = t.m_search ∧
      (t.update_replacement index p r).m_replacement =
        t.m_replacement.set index.toNat ⟨p, r⟩) := by
  constructor
  · intro hout
    have hneg : ¬ (0 ≤ index ∧ index < (t.m_replacement.length : Int)) := by
      rcases hout with h | h
      · exact fun hc => absurd hc.1 (by omega)
      · exact fun hc => absurd hc.2 (by omega)
    exact ⟨by rw [rule_based_transformation.get_replacement_probability, if_neg hneg],
      by rw [rule_based_transformation.get_replacement_grid, if_neg hneg],
      by rw [rule_based_transformation.update_replacement, if_neg hneg]⟩
  · intro h0 hlt hn
    have hpos : 0 ≤ index ∧ index < (t.m_replacement.length : Int) := ⟨h0, hlt⟩
    refine ⟨?_, ?_, ?_, ?_⟩
    · rw [rule_based_transformation.get_replacement_probability, if_pos hpos,
        List.getD_eq_getElem _ _ hn]
      rw [List.get_eq_getElem]
    · rw [rule_based_transformation.get_replacement_grid, if_pos hpos,
        List.getD_eq_getElem _ _ hn]
      rw [List.get_eq_getElem]
    · rw [rule_based_transformation.update_replacement, if_pos hpos]
    · rw [rule_based_transformation.update_replacement, if_pos hpos]

/-- C10 witness: a transformation with one stored replacement, probed out of
range (index 5) and in range (index 0). -/
theorem C10_replacement_accessors_witness :
    ((rule_based_transformation.mk (grid.mk 1 1 [0])
        [⟨1, grid.mk 1 1 [5]⟩]).get_replacement_probability 5 = 0 ∧
      (rule_based_transformation.mk (grid.mk 1 1 [0])
        [⟨1, grid.mk 1 1 [5]⟩]).get_replacement_grid 5 = defaultGrid ∧
      (rule_based_transformation.mk (grid.mk 1 1 [0])
        [⟨1, grid.mk 1 1 [5]⟩]).update_replacement 5 2 (grid.mk 1 1 [9]) =
        rule_based_transformation.mk (grid.mk 1 1 [0]) [⟨1, grid.mk 1 1 [5]⟩]) ∧
    (rule_based_transformation.mk (grid.mk 1 1 [0])
        [⟨1, grid.mk 1 1 [5]⟩]).get_replacement_probability 0 = 1 := by
  refine ⟨(C10_replacement_accessors _ 5 2 (grid.mk 1 1 [9])).1 (by right; decide), ?_⟩
  have h := (C10_replacement_accessors
    (rule_based_transformation.mk (grid.mk 1 1 [0]) [⟨1, grid.mk 1 1 [5]⟩])
    0 2 (grid.mk 1 1 [9])).2 (by decide) (by decide) (by decide)
  rw [h.1]
  decide


/- Kernel evaluation of concrete rational arithmetic (the probability
accumulation in the selection loop) needs the core `Rat` operations to be
unfoldable; they are `@[irreducible]` by default. -/
attribute [local semireducible] Rat.add Rat.mul Rat.inv Rat.sub

theorem matchedAnchor_false_of_oversized (t : rule_based_transformation)
    (input : grid) (a : Int × Int) (hi : 0 ≤ a.1) (hj : 0 ≤ a.2)
    (hbig : input.m_width < t.m_search.m_width ∨
      input.m_height < t.m_search.m_height) :
    matchedAnchor input t.m_search a = false := by
  rw [matchedAnchor, fitsAt_false_of_oversized input t.m_search a.1 a.2 hi hj hbig]
  rfl

/-- C5 counterexample: a search pattern with a zero dimension is not a
no-op: with a 0×0 search on a 2×2 grid the anchor (1, 1) passes the
`in_bounds(i + w - 1, j + h - 1)` fit test (the subtraction lands back
inside the grid), matches vacuously, and the probability-1 replacement
overwrites a cell, so the output differs from the input. -/
theorem C5_counterexample :
    (grid.mk 0 0 ([] : List Int)).m_width = 0 ∧
    (rule_apply ⟨grid.mk 0 0 [], [⟨1, grid.mk 1 1 [5]⟩]⟩
        (grid.mk 2 2 [1, 2, 3, 4]) (grid.mk 2 2 [0, 0, 0, 0]) (fun _ => 0)).1 ≠
      grid.mk 2 2 [1, 2, 3, 4] := by
  constructor
  · rfl
  · decide

/-- C5 (amended): when the search pattern is strictly wider or taller than
the input grid, no anchor ever fits, the apply call consumes no randomness,
and the output is exactly the input — a valid no-op, not an error.  (A
zero-dimension search is excluded: it vacuously matches at anchors whose
`i + w - 1`/`j + h - 1` probe lands back inside the grid, see the
counterexample.) -/
theorem C5_oversized_search_noop (t : rule_based_transformation)
    (input output : grid) (rs : Nat → ℚ) (hin : input.wf) (hout : output.wf)
    (hbig : input.m_width < t.m_search.m_width ∨
      input.m_height < t.m_search.m_height) :
    rule_apply t input output rs = (input, 0) := by
  unfold rule_apply
  rw [rule_apply_init input output hin hout]
  refine scan_all_unmatched t input rs _ _ fun a ha => ?_
  obtain ⟨i, hi, j, hj, rfl⟩ := anchorList_mem.1 ha
  exact matchedAnchor_false_of_oversized t input _ (Int.natCast_nonneg i)
    (Int.natCast_nonneg j) hbig

/-- C5 witness: a 3×3 all-wildcard search on a 2×2 grid never fits; the
apply call returns the input untouched and zero draws. -/
theorem C5_oversized_search_noop_witness :
    rule_apply ⟨grid.mk 3 3 (List.replicate 9 (-1)), [⟨1, grid.mk 1 1 [5]⟩]⟩
        (grid.mk 2 2 [1, 2, 3, 4]) (grid.mk 2 2 [0, 0, 0, 0]) (fun _ => 0) =
      (grid.mk 2 2 [1, 2, 3, 4], 0) :=
  C5_oversized_search_noop _ _ _ _ (by decide) (by decide) (by decide)

/-- C1: one uniform draw is consumed at each matched anchor and only there
(an apply call consumes exactly one draw per matched anchor, in scan order);
at a matched anchor the selection walks the stored replacement list
accumulating probability mass and applies the first entry whose cumulative
mass reaches the draw — on an exact boundary the earlier entry wins — and
when no cumulative mass reaches the draw no replacement is applied and the
pass-through grid is left untouched by that anchor. -/
theorem C1_weighted_selection (t : rule_based_transformation) (input output : grid)
    (rs : Nat → ℚ) :
    ((rule_apply t input output rs).2 =
      (anchorList input.m_width input.m_height).countP
        (matchedAnchor input t.m_search)) ∧
    (∀ st a, matchedAnchor input t.m_search a = false →
      anchorStep t input rs st a = st) ∧
    (∀ st a, matchedAnchor input t.m_search a = true →
      anchorStep t input rs st a =
        (match selectReplacement t.m_replacement 0 (rs st.2) with
         | some repl => applyRepl st.1 repl a.1 a.2
         | none => st.1, st.2 + 1)) ∧
    (∀ (r : ℚ) (n : Nat) (hn : n < t.m_replacement.length),
      r ≤ cumProb t.m_replacement (n + 1) →
      (∀ m, m < n → cumProb t.m_replacement (m + 1) < r) →
      selectReplacement t.m_replacement 0 r =
        some (t.m_replacement.get ⟨n, hn⟩).replacement) ∧
    (∀ r : ℚ, (∀ n, n < t.m_replacement.length →
        cumProb t.m_replacement (n + 1) < r) →
      selectReplacement t.m_replacement 0 r = none) ∧
    (∀ st a, matchedAnchor input t.m_search a = true →
      selectReplacement t.m_replacement 0 (rs st.2) = none →
      (anchorStep t input rs st a).1 = st.1) := by
  refine ⟨?_, anchorStep_not_matched t input rs, anchorStep_matched t input rs,
    ?_, ?_, ?_⟩
  · unfold rule_apply
    rw [scan_counter]
    simp
  · intro r n hn hhit hbefore
    refine selectReplacement_first_hit t.m_replacement 0 r n hn ?_ ?_
    · rw [zero_add]; exact hhit
    · intro m hm
      rw [zero_add]; exact hbefore m hm
  · intro r hall
    rw [selectReplacement_none_iff]
    intro n hn
    rw [zero_add]; exact hall n hn
  · intro st a hm hsel
    rw [anchorStep_matched t input rs st a hm, hsel]

/-- C1 witness: a 1×1 wildcard search on a 1×1 grid with two replacements of
mass 1/4 each; the draw 1/4 hits the first entry exactly on the boundary
(first in list wins), the draw 3/4 exceeds the total mass 1/2 so no
replacement is selected, and the whole call consumes exactly one draw (one
matched anchor). -/
theorem C1_weighted_selection_witness :
    (rule_apply
        ⟨grid.mk 1 1 [-1], [⟨mkRat 1 4, grid.mk 1 1 [7]⟩, ⟨mkRat 1 4, grid.mk 1 1 [8]⟩]⟩
        (grid.mk 1 1 [0]) (grid.mk 1 1 [0]) (fun _ => mkRat 1 4)).2 = 1 ∧
    selectReplacement [⟨mkRat 1 4, grid.mk 1 1 [7]⟩, ⟨mkRat 1 4, grid.mk 1 1 [8]⟩]
      0 (mkRat 1 4) = some (grid.mk 1 1 [7]) ∧
    selectReplacement [⟨mkRat 1 4, grid.mk 1 1 [7]⟩, ⟨mkRat 1 4, grid.mk 1 1 [8]⟩]
      0 (mkRat 3 4) = none := by
  have h := C1_weighted_selection
    ⟨grid.mk 1 1 [-1], [⟨mkRat 1 4, grid.mk 1 1 [7]⟩, ⟨mkRat 1 4, grid.mk 1 1 [8]⟩]⟩
    (grid.mk 1 1 [0]) (grid.mk 1 1 [0]) (fun _ => mkRat 1 4)
  refine ⟨?_, ?_, ?_⟩
  · rw [h.1]
    decide
  · have hsel := h.2.2.2.1 (mkRat 1 4) 0 (by decide) (by decide)
      (fun m hm => absurd hm (by omega))
    rw [hsel]
    rfl
  · exact h.2.2.2.2.1 (mkRat 3 4) (by decide)


/-- C2: the output of a rule-based apply starts as a cell-for-cell copy of
the input, and a cell that no replacement of the list can cover from any
matched anchor keeps its input value through the whole call; an anchor
matches iff every non-wildcard search cell equals the corresponding input
cell (wildcard search cells match anything); applying a replacement writes
exactly its non-wildcard cells at the anchor, while wildcard replacement
cells leave the present output value in place. -/
theorem C2_match_and_write (t : rule_based_transformation) (input output : grid)
    (rs : Nat → ℚ) (W H : Nat)
    (hW : input.m_width = (W : Int)) (hH : input.m_height = (H : Int))
    (hin : input.wf) (hout : output.wf)
    (hrep : ∀ e ∈ t.m_replacement,
      e.replacement.m_width ≤ t.m_search.m_width ∧
      e.replacement.m_height ≤ t.m_search.m_height) :
    (∀ i j : Int, matchAt input t.m_search i j = true ↔
      ∀ x : Nat, x < t.m_search.m_width.toNat →
        ∀ y : Nat, y < t.m_search.m_height.toNat →
        t.m_search.get (↑x) (↑y) = wildcardId ∨
          input.get (i + ↑x) (j + ↑y) = t.m_search.get (↑x) (↑y)) ∧
    (∀ (o repl : grid) (I J : Nat), o.m_width = (W : Int) →
      I + repl.m_width.toNat ≤ W →
      ∀ x y : Nat, x < repl.m_width.toNat → y < repl.m_height.toNat →
      (J + y) * W + (I + x) < o.m_data.length →
      (applyRepl o repl (↑I) (↑J)).get ((I : Int) + ↑x) ((J : Int) + ↑y) =
        if repl.get (↑x) (↑y) = wildcardId then
          o.get ((I : Int) + ↑x) ((J : Int) + ↑y)
        else repl.get (↑x) (↑y)) ∧
    (∀ u v : Nat, u < W → v < H →
      (∀ I : Nat, I < W → ∀ J : Nat, J < H →
        matchedAnchor input t.m_search ((I : Int), (J : Int)) = true →
        ∀ e ∈ t.m_replacement, ¬ covers e.replacement (↑I) (↑J) (↑u) (↑v)) →
      (rule_apply t input output rs).1.get (↑u) (↑v) = input.get (↑u) (↑v)) := by
  refine ⟨fun i j => matchAt_iff input t.m_search i j,
    fun o repl I J hw hIW x y hx hy hflat =>
      applyRepl_get o repl I J W hw hIW x y hx hy hflat,
    ?_⟩
  intro u v hu hv hnc
  unfold rule_apply
  rw [rule_apply_init input output hin hout]
  have has : ∀ a ∈ anchorList input.m_width input.m_height,
      ∃ I : Nat, I < W ∧ ∃ J : Nat, J < H ∧ a = ((I : Int), (J : Int)) := by
    intro a ha
    obtain ⟨i, hi, j, hj, rfl⟩ := anchorList_mem.1 ha
    rw [hW, Int.toNat_natCast] at hi
    rw [hH, Int.toNat_natCast] at hj
    exact ⟨i, hi, j, hj, rfl⟩
  exact (scan_frame t input rs W H hW hH hrep u v hu hnc
    (anchorList input.m_width input.m_height) (input, 0) has hW).2.2.2

/-- C2 witness: an all-wildcard 1×1 search on a 2×2 grid with an
all-wildcard replacement; the anchor (0,0) matches (wildcard matches
anything), a non-wildcard 1×1 replacement writes its value at the anchor,
and the pass-through cell (0,0) keeps the input value since the all-wildcard
replacement covers nothing. -/
theorem C2_match_and_write_witness :
    matchAt (grid.mk 2 2 [1, 2, 3, 4]) (grid.mk 1 1 [-1]) 0 0 = true ∧
    (applyRepl (grid.mk 2 2 [0, 0, 0, 0]) (grid.mk 1 1 [5]) 0 0).get 0 0 = 5 ∧
    (rule_apply ⟨grid.mk 1 1 [-1], [⟨1, grid.mk 1 1 [-1]⟩]⟩
        (grid.mk 2 2 [1, 2, 3, 4]) (grid.mk 2 2 [0, 0, 0, 0]) (fun _ => 0)).1.get 0 0 =
      (grid.mk 2 2 [1, 2, 3, 4]).get 0 0 := by
  have h := C2_match_and_write ⟨grid.mk 1 1 [-1], [⟨1, grid.mk 1 1 [-1]⟩]⟩
    (grid.mk 2 2 [1, 2, 3, 4]) (grid.mk 2 2 [0, 0, 0, 0]) (fun _ => 0)
    2 2 rfl rfl (by decide) (by decide) (by decide)
  refine ⟨?_, ?_, ?_⟩
  · refine (h.1 0 0).2 fun x hx y hy => Or.inl ?_
    have hx0 : x = 0 := by
      rw [show (grid.mk 1 1 [-1] : grid).m_width.toNat = 1 from rfl] at hx
      omega
    have hy0 : y = 0 := by
      rw [show (grid.mk 1 1 [-1] : grid).m_height.toNat = 1 from rfl] at hy
      omega
    subst hx0
    subst hy0
    decide
  · have happ := h.2.1 (grid.mk 2 2 [0, 0, 0, 0]) (grid.mk 1 1 [5]) 0 0 rfl
      (by decide) 0 0 (by decide) (by decide) (by decide)
    rw [if_neg (by decide)] at happ
    have h5 : (grid.mk 1 1 [5] : grid).get 0 0 = 5 := by decide
    simpa [h5] using happ
  · have hframe := h.2.2 0 0 (by decide) (by decide) (by decide)
    simpa using hframe


theorem wh_toNat (iw ih : Int) (W H : Nat) (hW : iw = (W : Int)) (hH : ih = (H : Int)) :
    (iw * ih).toNat = W * H := by
  rw [hW, hH, ← Int.natCast_mul, Int.toNat_natCast]

/-- C8: with an empty alphabet `random_transformation::apply` hands
`std::uniform_int_distribution<int>` the bounds `(0, -1)` — the upper bound
below the lower, violating the distribution's `a <= b` precondition — and
then indexes the empty symbol vector with its result: undefined behaviour,
and no error of any kind is reported (a code bug: the spec's ConfigError is
the evident intent).  When every draw is a valid index (as uniform draws
over a nonempty alphabet are), every output cell holds the id of a symbol
registered in the alphabet, namely the one selected by that cell's draw. -/
theorem C8_random_alphabet (al : List symbol) (input output : grid)
    (ints : Nat → Nat) (W H : Nat)
    (hW : input.m_width = (W : Int)) (hH : input.m_height = (H : Int))
    (hout : output.wf) :
    (randomDisBounds [] = (0, -1) ∧ (randomDisBounds []).2 < (randomDisBounds []).1) ∧
    ((∀ k, ints k < al.length) →
      ∀ x y : Nat, x < W → y < H →
      (randomApply al input output ints).get (↑x) (↑y) =
        (al.getD (ints (x * H + y)) ⟨0, ""⟩).id ∧
      (randomApply al input output ints).get (↑x) (↑y) ∈ al.map symbol.id) := by
  refine ⟨⟨rfl, by decide⟩, ?_⟩
  intro hints x y hx hy
  obtain ⟨hew, heh, hel⟩ := ensureDims_spec input output hout
  have hwcast : (ensureDims input output).m_width = (W : Int) := by rw [hew, hW]
  have hlen : W * H ≤ (ensureDims input output).m_data.length := by
    rw [hel, wh_toNat input.m_width input.m_height W H hW hH]
  have hHt : input.m_height.toNat = H := by rw [hH, Int.toNat_natCast]
  have hWt : input.m_width.toNat = W := by rw [hW, Int.toNat_natCast]
  have hres : (randomApply al input output ints).get (↑x) (↑y) =
      (al.getD (ints (x * H + y)) ⟨0, ""⟩).id := by
    rw [randomApply_eq_writePairs, grid_get_eq_flat, writePairs_width, hwcast,
      flatIdxW_ofNat, hWt, hHt]
    rw [writePairs_colmajor_getD (ensureDims input output) W H hwcast hlen _ x y hx hy]
    rfl
  refine ⟨hres, ?_⟩
  rw [hres]
  have hidx : ints (x * H + y) < al.length := hints _
  rw [List.getD_eq_getElem _ _ hidx]
  exact List.mem_map.2 ⟨al[ints (x * H + y)], List.getElem_mem _, rfl⟩

/-- C8 witness: a one-symbol alphabet (id 3) on a 1×1 grid; the single cell
receives id 3, a registered symbol. -/
theorem C8_random_alphabet_witness :
    (randomApply [⟨3, "x"⟩] (grid.mk 1 1 [0]) (grid.mk 1 1 [9]) (fun _ => 0)).get 0 0 =
      (([⟨3, "x"⟩] : List symbol).getD 0 ⟨0, ""⟩).id ∧
    (randomApply [⟨3, "x"⟩] (grid.mk 1 1 [0]) (grid.mk 1 1 [9]) (fun _ => 0)).get 0 0 ∈
      ([⟨3, "x"⟩] : List symbol).map symbol.id := by
  have h := (C8_random_alphabet [⟨3, "x"⟩] (grid.mk 1 1 [0]) (grid.mk 1 1 [9])
    (fun _ => 0) 1 1 rfl rfl (by decide)).2 (fun _ => by decide) 0 0
    (by decide) (by decide)
  simpa using h


theorem pout_bind_ok {α β : Type} (a : α) (f : α → ParseOutcome β) :
    ((ParseOutcome.ok a : ParseOutcome α) >>= f) = f a := rfl

theorem pout_bind_thrown {α β : Type} (e : String) (f : α → ParseOutcome β) :
    ((ParseOutcome.thrown e : ParseOutcome α) >>= f) = ParseOutcome.thrown e := rfl

theorem pout_bind_undefined {α β : Type} (f : α → ParseOutcome β) :
    ((ParseOutcome.undefined : ParseOutcome α) >>= f) = ParseOutcome.undefined := rfl

theorem pout_pure_bind {α β : Type} (a : α) (f : α → ParseOutcome β) :
    ((pure a : ParseOutcome α) >>= f) = f a := rfl

theorem mapAsInt_map_jint (l : List Int) : mapAsInt (l.map Json.jint) = .ok l := by
  induction l with
  | nil => rfl
  | cons n rest ih =>
    simp only [List.map_cons, mapAsInt, asInt, pout_bind_ok, ih]

theorem getD_replicate_zero (n m : Nat) : (List.replicate n (0 : Int)).getD m 0 = 0 := by
  rw [List.getD_eq_getElem?_getD, List.getElem?_replicate]
  by_cases h : m < n
  · rw [if_pos h]
    rfl
  · rw [if_neg h]
    rfl

theorem fillData_eq_full (w h : Int) (data : List Int) (hw : 0 ≤ w) (hh : 0 ≤ h)
    (hlen : data.length ≤ (w * h).toNat) :
    fillData w h data ((grid.mk 0 0 []).resize w h 0) =
      grid.mk w h (data ++ List.replicate ((w * h).toNat - data.length) 0) := by
  set W := w.toNat with hWdef
  set H := h.toNat with hHdef
  have hwc : w = (W : Int) := (Int.toNat_of_nonneg hw).symm
  have hhc : h = (H : Int) := (Int.toNat_of_nonneg hh).symm
  have hWH : (w * h).toNat = W * H := wh_toNat w h W H hwc hhc
  have hbase : (grid.mk 0 0 []).resize w h 0 =
      grid.mk w h (List.replicate (W * H) 0) := by
    show grid.mk w h (listResize [] (w * h).toNat 0) = _
    rw [listResize_nil, hWH]
  rw [hbase]
  rw [hWH] at hlen ⊢
  set base := grid.mk w h (List.replicate (W * H) 0) with hbasedef
  have hbw : base.m_width = (W : Int) := hwc
  have hbl : base.m_data.length = W * H := List.length_replicate _ _
  have hwidth : (fillData w h data base).m_width = w := by
    rw [fillData_eq_writePairs]
    exact writePairs_width _ _
  have hheight : (fillData w h data base).m_height = h := by
    rw [fillData_eq_writePairs]
    exact writePairs_height _ _
  have hlength : (fillData w h data base).m_data.length = W * H := by
    rw [fillData_eq_writePairs]
    rw [writePairs_length]
    exact hbl
  have htlen : (data ++ List.replicate (W * H - data.length) 0).length = W * H := by
    rw [List.length_append, List.length_replicate]
    omega
  have hdata : (fillData w h data base).m_data =
      data ++ List.replicate (W * H - data.length) 0 := by
    refine List.ext_getElem (by rw [hlength, htlen]) fun n h₁ h₂ => ?_
    have h₁' : n < W * H := by rw [← hlength]; exact h₁
    have hWpos : 0 < W := by
      rcases Nat.eq_zero_or_pos W with hW0 | hWpos
      · rw [hW0] at h₁'
        omega
      · exact hWpos
    set x := n % W with hxdef
    set y := n / W with hydef
    have hx : x < W := Nat.mod_lt n hWpos
    have hy : y < H := by
      rw [hydef, Nat.div_lt_iff_lt_mul hWpos]
      exact Nat.lt_of_lt_of_le h₁' (Nat.le_of_eq (Nat.mul_comm W H))
    have hn : y * W + x = n := by
      rw [hxdef, hydef, Nat.mul_comm]
      exact Nat.div_add_mod n W
    have hgetD : (fillData w h data base).m_data.getD (y * W + x) 0 =
        (if y * W + x < data.length then some (data.getD (y * W + x) 0)
          else none).getD (base.m_data.getD (y * W + x) 0) := by
      rw [fillData_eq_writePairs]
      have hWt : w.toNat = W := rfl
      rw [show h.toNat = H from rfl, hWt]
      exact writePairs_rowmajor_getD base W H hbw (le_of_eq hbl.symm) _ x y hx hy
    rw [hn] at hgetD
    rw [← List.getD_eq_getElem _ 0 h₁, hgetD]
    have hbase0 : base.m_data.getD n 0 = 0 := getD_replicate_zero _ _
    by_cases hc : n < data.length
    · rw [if_pos hc]
      rw [List.getD_eq_getElem _ 0 hc]
      rw [List.getElem_append_left hc]
      rfl
    · rw [if_neg hc, hbase0]
      have hc' : data.length ≤ n := by omega
      rw [List.getElem_append_right (by omega)]
      rw [List.getElem_replicate]
      rfl
  calc fillData w h data base =
      ⟨(fillData w h data base).m_width, (fillData w h data base).m_height,
       (fillData w h data base).m_data⟩ := rfl
    _ = grid.mk w h (data ++ List.replicate (W * H - data.length) 0) := by
        rw [hwidth, hheight, hdata]

theorem parseGridObj_round (g : grid) (hg : g.wf) :
    parseGridObj (gridToJson g) = .ok g := by
  obtain ⟨hw, hh, hl⟩ := hg
  have hnew : gridNew g.m_width g.m_height 0 =
      some ((grid.mk 0 0 []).resize g.m_width g.m_height 0) := by
    unfold gridNew
    rw [if_neg (by push_neg; exact mul_nonneg hw hh)]
  have hfill := fillData_eq_full g.m_width g.m_height g.m_data hw hh (le_of_eq hl)
  rw [hl] at hfill
  simp only [Nat.sub_self, List.replicate_zero, List.append_nil] at hfill
  simp [parseGridObj, gridToJson, getField, List.find?, pout_bind_ok, asInt,
    asIntList, asArr, mapAsInt_map_jint, hnew, hfill]
  rfl

theorem add_symbol_append (acc : List symbol) (s : symbol)
    (h : ∀ a ∈ acc, a.id < s.id) : add_symbol acc s = acc ++ [s] := by
  induction acc with
  | nil => rfl
  | cons a rest ih =>
    have ha := h a (List.mem_cons_self _ _)
    rw [add_symbol, if_neg (by omega), if_neg (by omega)]
    rw [ih fun b hb => h b (List.mem_cons_of_mem _ hb)]
    rfl

theorem parseSymbols_round (al : List symbol) (hsorted : alphabetWF al) :
    ∀ acc : List symbol, (∀ a ∈ acc, ∀ b ∈ al, a.id < b.id) →
    parseSymbols (al.map symbolToJson) acc = .ok (acc ++ al) := by
  induction al with
  | nil =>
    intro acc _
    simp [parseSymbols]
  | cons sy rest ih =>
    intro acc hacc
    rw [alphabetWF, List.pairwise_cons] at hsorted
    have hstep : parseSymbols (symbolToJson sy :: rest.map symbolToJson) acc =
        parseSymbols (rest.map symbolToJson) (add_symbol acc ⟨sy.id, sy.name⟩) := by
      simp [parseSymbols, symbolToJson, getField, List.find?, pout_bind_ok,
        asInt, asStr]
    rw [List.map_cons, hstep]
    have heta : (⟨sy.id, sy.name⟩ : symbol) = sy := rfl
    rw [heta, add_symbol_append acc sy fun a hain =>
      hacc a hain sy (List.mem_cons_self _ _)]
    rw [ih hsorted.2 (acc ++ [sy]) ?hacc2]
    · rw [List.append_assoc]
      rfl
    case hacc2 =>
      intro a hain b hbin
      rcases List.mem_append.1 hain with hain | hain
      · exact hacc a hain b (List.mem_cons_of_mem _ hbin)
      · rw [List.mem_singleton.1 hain]
        exact hsorted.1 b hbin

theorem parseRepls_round (repls : List replacement_entry)
    (hwf : ∀ e ∈ repls, e.replacement.wf) :
    parseRepls (repls.map replacementToJson) = .ok repls := by
  induction repls with
  | nil => rfl
  | cons e rest ih =>
    simp [parseRepls, replacementToJson, getField, List.find?, pout_bind_ok, asRat,
      parseGridObj_round e.replacement (hwf e (List.mem_cons_self _ _)),
      ih fun e' he' => hwf e' (List.mem_cons_of_mem _ he')]

theorem parseTransformsList_round (ts : List transform)
    (hwf : ∀ t ∈ ts, transformWF t) :
    parseTransformsList (ts.map transformToJson) = .ok ts := by
  induction ts with
  | nil => rfl
  | cons t rest ih =>
    have hwt := hwf t (List.mem_cons_self _ _)
    have ihr := ih fun t' ht' => hwf t' (List.mem_cons_of_mem _ ht')
    cases t with
    | mk nm en kd =>
      cases kd with
      | random =>
        simp [parseTransformsList, transformToJson, getField, List.find?,
          pout_bind_ok, asStr, asBool, ihr]
      | ruleBased r =>
        rw [transformWF] at hwt
        cases r with
        | mk search repls =>
          simp [parseTransformsList, transformToJson, getField, List.find?,
            pout_bind_ok, asStr, asBool, asArr,
            parseGridObj_round search hwt.1,
            parseRepls_round repls hwt.2, ihr]

/-- C3: serializing a well-formed synthesizer and parsing the document back
reproduces the synthesizer exactly — the same grid dimensions and cells, the
same alphabet symbols (id and name, in map order), and the same
transformation list in order with equal name, enabled flag, variant, search
grid and replacement sequence. -/
theorem C3_round_trip (s : grid_synth) (hwf : s.wf) :
    grid_synth.from_json s.to_json = .ok s := by
  obtain ⟨⟨hw, hh, hl⟩, hal, hts⟩ := hwf
  have hnew : gridNew s.m_grid.m_width s.m_grid.m_height 0 =
      some ((grid.mk 0 0 []).resize s.m_grid.m_width s.m_grid.m_height 0) := by
    unfold gridNew
    rw [if_neg (by push_neg; exact mul_nonneg hw hh)]
  have hfill := fillData_eq_full s.m_grid.m_width s.m_grid.m_height s.m_grid.m_data
    hw hh (le_of_eq hl)
  rw [hl] at hfill
  simp only [Nat.sub_self, List.replicate_zero, List.append_nil] at hfill
  have hsym := parseSymbols_round s.m_alphabet hal [] (by simp)
  rw [List.nil_append] at hsym
  have htr := parseTransformsList_round s.m_transformations hts
  have hcore : fromJsonCore s.to_json = .ok s := by
    simp [fromJsonCore, grid_synth.to_json, gridToJson, getField, List.find?,
      pout_bind_ok, pout_pure_bind, asInt, asIntList, asArr, mapAsInt_map_jint,
      hnew, hfill, hsym, htr]
  rw [grid_synth.from_json, hcore]

/-- C3 witness: a concrete synthesizer (2×2 grid, two symbols, a random and
a rule-based transformation) survives the round trip unchanged. -/
theorem C3_round_trip_witness :
    grid_synth.from_json
        (grid_synth.to_json
          ⟨grid.mk 2 2 [1, 2, 3, 4], [⟨1, "F"⟩, ⟨2, "G"⟩],
           [⟨"noise", true, transformKind.random⟩,
            ⟨"rule", false, transformKind.ruleBased
              ⟨grid.mk 1 1 [2], [⟨1, grid.mk 1 1 [5]⟩]⟩⟩]⟩) =
      .ok ⟨grid.mk 2 2 [1, 2, 3, 4], [⟨1, "F"⟩, ⟨2, "G"⟩],
           [⟨"noise", true, transformKind.random⟩,
            ⟨"rule", false, transformKind.ruleBased
              ⟨grid.mk 1 1 [2], [⟨1, grid.mk 1 1 [5]⟩]⟩⟩]⟩ :=
  C3_round_trip _ (by decide)


/-- C9 counterexample: a document whose grid `data` array is shorter than
the declared `width*height` does NOT fail: the restore loop's
`index < data.size()` guard silently leaves the missing cells at the
constructor default 0, and `from_json` returns a synthesizer. -/
theorem C9_counterexample :
    ([7] : List Int).length < ((1 : Int) * 2).toNat ∧
    grid_synth.from_json
        (Json.jobj [("version", .jint 1),
          ("grid", .jobj [("width", .jint 1), ("height", .jint 2),
            ("data", .jarr [.jint 7])]),
          ("alphabet", .jobj [("symbols", .jarr [])]),
          ("transformations", .jarr [])]) =
      .ok ⟨grid.mk 1 2 [7, 0], [], []⟩ := by
  constructor
  · decide
  · decide

/-- C9 (amended): a version field other than 1 and a mistyped required
field make `from_json` fail with the single wrapped "Failed to parse"
error, returning no synthesizer; but the other two failure modes the claim
names do not produce that error: a missing required field is a
`JSON_ASSERT`/undefined-behaviour access (`const operator[]` throws
nothing, so the `catch` never sees it and no FormatError is ever built),
and a grid `data` array shorter than the declared `width*height` is
tolerated outright — the document parses and every cell beyond the array
keeps the constructor default 0. -/
theorem C9_from_json_failures :
    (∀ (v : Int) (rest : List (String × Json)), v ≠ 1 →
      grid_synth.from_json (.jobj (("version", .jint v) :: rest)) =
        .thrown ("Failed to parse grid_synth from JSON: " ++
          ("Unsupported grid_synth file version: " ++ toString v))) ∧
    (grid_synth.from_json (.jobj []) = .undefined) ∧
    (∀ (str : String) (rest : List (String × Json)),
      grid_synth.from_json (.jobj (("version", .jstr str) :: rest)) =
        .thrown ("Failed to parse grid_synth from JSON: " ++
          "type error: expected number")) ∧
    (∀ (w h : Int) (data : List Int), 0 ≤ w → 0 ≤ h →
      data.length ≤ (w * h).toNat →
      grid_synth.from_json
          (.jobj [("version", .jint 1),
            ("grid", .jobj [("width", .jint w), ("height", .jint h),
              ("data", .jarr (data.map .jint))]),
            ("alphabet", .jobj [("symbols", .jarr [])]),
            ("transformations", .jarr [])]) =
        .ok ⟨grid.mk w h (data ++ List.replicate ((w * h).toNat - data.length) 0),
          [], []⟩) := by
  refine ⟨?_, ?_, ?_, ?_⟩
  · intro v rest hv
    have hcore : fromJsonCore (.jobj (("version", .jint v) :: rest)) =
        .thrown ("Unsupported grid_synth file version: " ++ toString v) := by
      simp [fromJsonCore, getField, List.find?, pout_bind_ok, asInt, hv]
    rw [grid_synth.from_json, hcore]
  · rfl
  · intro str rest
    have hcore : fromJsonCore (.jobj (("version", .jstr str) :: rest)) =
        .thrown "type error: expected number" := by
      simp [fromJsonCore, getField, List.find?, pout_bind_ok, pout_bind_thrown,
        asInt]
    rw [grid_synth.from_json, hcore]
  · intro w h data hw hh hlen
    have hnew : gridNew w h 0 = some ((grid.mk 0 0 []).resize w h 0) := by
      unfold gridNew
      rw [if_neg (by push_neg; exact mul_nonneg hw hh)]
    have hfill := fillData_eq_full w h data hw hh hlen
    have hcore : fromJsonCore
        (.jobj [("version", .jint 1),
          ("grid", .jobj [("width", .jint w), ("height", .jint h),
            ("data", .jarr (data.map .jint))]),
          ("alphabet", .jobj [("symbols", .jarr [])]),
          ("transformations", .jarr [])]) =
        .ok ⟨grid.mk w h (data ++ List.replicate ((w * h).toNat - data.length) 0),
          [], []⟩ := by
      simp [fromJsonCore, getField, List.find?, pout_bind_ok, pout_pure_bind,
        asInt, asIntList, asArr, mapAsInt_map_jint, hnew, hfill, parseSymbols,
        parseTransformsList]
    rw [grid_synth.from_json, hcore]

/-- C9 witness: version 2 is rejected with the wrapped unsupported-version
error, and the short-data document of the counterexample parses with the
missing cell defaulted to 0. -/
theorem C9_from_json_failures_witness :
    grid_synth.from_json (.jobj [("version", .jint 2)]) =
      .thrown ("Failed to parse grid_synth from JSON: " ++
        ("Unsupported grid_synth file version: " ++ toString (2 : Int))) ∧
    grid_synth.from_json
        (.jobj [("version", .jint 1),
          ("grid", .jobj [("width", .jint 1), ("height", .jint 2),
            ("data", .jarr (([7] : List Int).map .jint))]),
          ("alphabet", .jobj [("symbols", .jarr [])]),
          ("transformations", .jarr [])]) =
      .ok ⟨grid.mk 1 2 ([7] ++ List.replicate (((1 : Int) * 2).toNat - 1) 0),
        [], []⟩ := by
  refine ⟨C9_from_json_failures.1 2 [] (by decide), ?_⟩
  exact C9_from_json_failures.2.2.2 1 2 [7] (by decide) (by decide) (by decide)

end GS
